import Mathlib

/-!
# WarheadBand: the `Map` header and the box collision helper

A shallow embedding of the parts of `src/server/game/Maps/Map.h` and
`src/common/Collision/VMapTools.h` that the properties below talk about.

Conventions of the embedding

* `uint32` values are natural numbers; where the C++ arithmetic could wrap the
  reduction modulo `2 ^ 32` is written out.
* `time_t` is an integer.
* a `std::unordered_map<K, V>` is an association list; `find` walks it and
  returns the first pair whose key matches (`none` stands for `end()`), and
  the container invariant "keys are unique" is the predicate `UniqueKeys`.
* a raw pointer is an address, `0` being `nullptr`; a pointer to a container
  owned by the map is an `Option` of that container.
* member functions take the `Map` value and, when they return a result
  together with the state they leave behind, return the pair.
* a `float` is an IEEE 754 binary32 value (`F32`). The box collision helper is
  embedded in binary32 (`VMAP.MyCollisionDetection`) and, as its reading over
  exact rationals, in `ℚ` (`MyCollisionDetection`); the two return the same
  whenever the binary32 arithmetic of the call is exact.
-/

namespace WarheadBand

/-! ## Machine integers -/

/-- Number of values of a `uint32`. -/
def UINT32_SIZE : Nat := 2 ^ 32

/-- The C++ `a -= b` on `uint32`: subtraction modulo `2 ^ 32`. -/
def uint32_sub (a b : Nat) : Nat := (a + UINT32_SIZE - b % UINT32_SIZE) % UINT32_SIZE

/-! ## `std::unordered_map` -/

/-- An `std::unordered_map<K, V>`: the stored (key, value) pairs. -/
abbrev UnorderedMap (κ : Type) (ν : Type) := List (κ × ν)

/-- The lookup `find(key)`: the stored pair with that key, `none` for `end()`. -/
def UnorderedMap.find {κ ν : Type} [DecidableEq κ] (m : UnorderedMap κ ν) (key : κ) :
    Option (κ × ν) :=
  List.find? (fun p => decide (p.1 = key)) m

/-- Container invariant of `std::unordered_map`: no key is stored twice. -/
def UniqueKeys {κ ν : Type} (m : UnorderedMap κ ν) : Prop :=
  (m.map Prod.fst).Nodup

instance {κ ν : Type} [DecidableEq κ] (m : UnorderedMap κ ν) : Decidable (UniqueKeys m) :=
  inferInstanceAs (Decidable (m.map Prod.fst).Nodup)

/-! ## `Map` -/

/-- An `ObjectGuid`, by its raw 64-bit value. -/
abbrev ObjectGuid := Nat

/-- The type `ObjectGuid::LowType`. -/
abbrev LowType := Nat

/-- The type `time_t`. -/
abbrev time_t := Int

/-- A `Corpse*`: the address of the corpse, `0` for `nullptr`. -/
abbrev CorpsePtr := Nat

/-- The null pointer. -/
def nullptr : Nat := 0

/-- The constant `MIN_UNLOAD_DELAY` ("immediate unload"). -/
def MIN_UNLOAD_DELAY : Nat := 1

/-- The data members of `class Map` read or written by the member functions
embedded below. -/
structure Map where
  /-- Field `uint32 _unloadTimer{}`. -/
  _unloadTimer : Nat := 0
  /-- Field `std::unordered_map<LowType, time_t> _creatureRespawnTimes`. -/
  _creatureRespawnTimes : UnorderedMap LowType time_t := []
  /-- Field `std::unordered_map<LowType, time_t> _goRespawnTimes`. -/
  _goRespawnTimes : UnorderedMap LowType time_t := []
  /-- Field `std::unordered_map<uint32, std::unordered_set<Corpse*>> _corpsesByCell`. -/
  _corpsesByCell : UnorderedMap Nat (List CorpsePtr) := []
  /-- Field `std::unordered_map<ObjectGuid, Corpse*> _corpsesByPlayer`. -/
  _corpsesByPlayer : UnorderedMap ObjectGuid CorpsePtr := []
deriving DecidableEq, Repr

/-- The member `Map::CanUnload(uint32 diff)`: the returned flag and the map it
leaves behind.

```
if (!_unloadTimer) return false;
if (_unloadTimer <= diff) return true;
_unloadTimer -= diff;
return false;
```
-/
def Map.CanUnload (m : Map) (diff : Nat) : Bool × Map :=
  if m._unloadTimer = 0 then
    (false, m)
  else if m._unloadTimer ≤ diff then
    (true, m)
  else
    (false, { m with _unloadTimer := uint32_sub m._unloadTimer diff })

/-- Successive `CanUnload` calls with the tick lengths `ds`: for each call, in
order, the flag it returned and the value of `_unloadTimer` it left. -/
def Map.CanUnloadTrace (m : Map) : List Nat → List (Bool × Nat)
  | [] => []
  | d :: ds =>
    ((m.CanUnload d).1, (m.CanUnload d).2._unloadTimer) :: Map.CanUnloadTrace (m.CanUnload d).2 ds

/-- The const member `Map::GetCreatureRespawnTime(LowType dbGuid)`: the
returned time and the map after the call.

```
auto itr = _creatureRespawnTimes.find(dbGuid);
if (itr != _creatureRespawnTimes.end()) return itr->second;
return time_t(0);
```
-/
def Map.GetCreatureRespawnTime (m : Map) (dbGuid : LowType) : time_t × Map :=
  match m._creatureRespawnTimes.find dbGuid with
  | some itr => (itr.2, m)
  | none => (0, m)

/-- The const member `Map::GetGORespawnTime(LowType dbGuid)`: the returned
time and the map after the call. -/
def Map.GetGORespawnTime (m : Map) (dbGuid : LowType) : time_t × Map :=
  match m._goRespawnTimes.find dbGuid with
  | some itr => (itr.2, m)
  | none => (0, m)

/-- The const member `Map::GetCorpsesInCell(uint32 cellId)`: the returned
pointer to the stored set (`none` is `nullptr`) and the map after the call.

```
auto itr = _corpsesByCell.find(cellId);
if (itr != _corpsesByCell.end()) return &itr->second;
return nullptr;
```
-/
def Map.GetCorpsesInCell (m : Map) (cellId : Nat) : Option (List CorpsePtr) × Map :=
  match m._corpsesByCell.find cellId with
  | some itr => (some itr.2, m)
  | none => (none, m)

/-- The const member `Map::GetCorpseByPlayer(ObjectGuid const& ownerGuid)`:
the returned `Corpse*` and the map after the call.

```
auto itr = _corpsesByPlayer.find(ownerGuid);
if (itr != _corpsesByPlayer.end()) return itr->second;
return nullptr;
```
-/
def Map.GetCorpseByPlayer (m : Map) (ownerGuid : ObjectGuid) : CorpsePtr × Map :=
  match m._corpsesByPlayer.find ownerGuid with
  | some itr => (itr.2, m)
  | none => (nullptr, m)

/-! ## `MapEnterState` -/

/-- The enumeration `MapEnterState : uint8`, the enumerators in declaration order. -/
inductive MapEnterState where
  | CAN_ENTER
  | CANNOT_ENTER_ALREADY_IN_MAP
  | CANNOT_ENTER_NO_ENTRY
  | CANNOT_ENTER_UNINSTANCED_DUNGEON
  | CANNOT_ENTER_DIFFICULTY_UNAVAILABLE
  | CANNOT_ENTER_NOT_IN_RAID
  | CANNOT_ENTER_CORPSE_IN_DIFFERENT_INSTANCE
  | CANNOT_ENTER_INSTANCE_BIND_MISMATCH
  | CANNOT_ENTER_TOO_MANY_INSTANCES
  | CANNOT_ENTER_MAX_PLAYERS
  | CANNOT_ENTER_ZONE_IN_COMBAT
  | CANNOT_ENTER_UNSPECIFIED_REASON
deriving DecidableEq, Repr

/-- The `uint8` value of an enumerator: no enumerator has an initializer, so
they count up from `0`. -/
def MapEnterState.toUInt8 : MapEnterState → Nat
  | .CAN_ENTER => 0
  | .CANNOT_ENTER_ALREADY_IN_MAP => 1
  | .CANNOT_ENTER_NO_ENTRY => 2
  | .CANNOT_ENTER_UNINSTANCED_DUNGEON => 3
  | .CANNOT_ENTER_DIFFICULTY_UNAVAILABLE => 4
  | .CANNOT_ENTER_NOT_IN_RAID => 5
  | .CANNOT_ENTER_CORPSE_IN_DIFFERENT_INSTANCE => 6
  | .CANNOT_ENTER_INSTANCE_BIND_MISMATCH => 7
  | .CANNOT_ENTER_TOO_MANY_INSTANCES => 8
  | .CANNOT_ENTER_MAX_PLAYERS => 9
  | .CANNOT_ENTER_ZONE_IN_COMBAT => 10
  | .CANNOT_ENTER_UNSPECIFIED_REASON => 11

/-- The nine denial reasons named in the specification of `CannotEnter`, in
the order it lists them: already-in-map, no-entry, wrong-difficulty,
not-in-raid, corpse-location-mismatch, bind-mismatch, too-many-instances,
max-players, zone-in-combat. -/
def specDenialReasons : List MapEnterState :=
  [ .CANNOT_ENTER_ALREADY_IN_MAP,
    .CANNOT_ENTER_NO_ENTRY,
    .CANNOT_ENTER_DIFFICULTY_UNAVAILABLE,
    .CANNOT_ENTER_NOT_IN_RAID,
    .CANNOT_ENTER_CORPSE_IN_DIFFERENT_INSTANCE,
    .CANNOT_ENTER_INSTANCE_BIND_MISMATCH,
    .CANNOT_ENTER_TOO_MANY_INSTANCES,
    .CANNOT_ENTER_MAX_PLAYERS,
    .CANNOT_ENTER_ZONE_IN_COMBAT ]

/-- A `Player*`: the address of the player, `0` for `nullptr`. -/
abbrev PlayerPtr := Nat

/-- The virtual member `Map::CannotEnter(Player*, bool)` as the base class
defines it, `{ return CAN_ENTER; }`: the returned state and the map after the
call. -/
def Map.CannotEnter (m : Map) (_player : PlayerPtr) (_loginCheck : Bool) : MapEnterState × Map :=
  (MapEnterState.CAN_ENTER, m)

/-! ## Liquid status -/

/-- A status word built from the enumerators of `enum LiquidStatus`. -/
abbrev LiquidStatus := Nat

/-- Enumerator `LIQUID_MAP_NO_WATER = 0x00000000`. -/
def LIQUID_MAP_NO_WATER : LiquidStatus := 0x00000000

/-- Enumerator `LIQUID_MAP_ABOVE_WATER = 0x00000001`. -/
def LIQUID_MAP_ABOVE_WATER : LiquidStatus := 0x00000001

/-- Enumerator `LIQUID_MAP_WATER_WALK = 0x00000002`. -/
def LIQUID_MAP_WATER_WALK : LiquidStatus := 0x00000002

/-- Enumerator `LIQUID_MAP_IN_WATER = 0x00000004`. -/
def LIQUID_MAP_IN_WATER : LiquidStatus := 0x00000004

/-- Enumerator `LIQUID_MAP_UNDER_WATER = 0x00000008`. -/
def LIQUID_MAP_UNDER_WATER : LiquidStatus := 0x00000008

/-- The mask `MAP_LIQUID_STATUS_SWIMMING = LIQUID_MAP_IN_WATER | LIQUID_MAP_UNDER_WATER`. -/
def MAP_LIQUID_STATUS_SWIMMING : LiquidStatus :=
  LIQUID_MAP_IN_WATER ||| LIQUID_MAP_UNDER_WATER

/-- The mask `MAP_LIQUID_STATUS_IN_CONTACT = MAP_LIQUID_STATUS_SWIMMING | LIQUID_MAP_WATER_WALK`. -/
def MAP_LIQUID_STATUS_IN_CONTACT : LiquidStatus :=
  MAP_LIQUID_STATUS_SWIMMING ||| LIQUID_MAP_WATER_WALK

/-- The C++ test `(s & mask) != 0`: the status word shares a bit with the mask. -/
def intersects (s mask : LiquidStatus) : Prop := s &&& mask ≠ 0

instance (s mask : LiquidStatus) : Decidable (intersects s mask) :=
  inferInstanceAs (Decidable (s &&& mask ≠ 0))

/-- The constant `INVALID_HEIGHT = -100000.0f`. -/
def INVALID_HEIGHT : ℚ := -100000

/-- The constant `MAX_HEIGHT = 100000.0f`. -/
def MAX_HEIGHT : ℚ := 100000

/-- The aggregate `struct LiquidData` with its default member initializers. -/
structure LiquidData where
  /-- Member `uint32 Entry{}`. -/
  Entry : Nat := 0
  /-- Member `uint32 Flags{}`. -/
  Flags : Nat := 0
  /-- Member `float Level{ INVALID_HEIGHT }`. -/
  Level : ℚ := INVALID_HEIGHT
  /-- Member `float DepthLevel{ INVALID_HEIGHT }`. -/
  DepthLevel : ℚ := INVALID_HEIGHT
  /-- Member `LiquidStatus Status{ LIQUID_MAP_NO_WATER }`. -/
  Status : LiquidStatus := LIQUID_MAP_NO_WATER
deriving DecidableEq

/-- The aggregate `struct PositionFullTerrainStatus` with its default member
initializers. -/
structure PositionFullTerrainStatus where
  /-- Member `uint32 areaId{}`. -/
  areaId : Nat := 0
  /-- Member `float floorZ{ INVALID_HEIGHT }`. -/
  floorZ : ℚ := INVALID_HEIGHT
  /-- Member `bool outdoors{}`. -/
  outdoors : Bool := false
  /-- Member `LiquidData liquidInfo{}`. -/
  liquidInfo : LiquidData := {}
deriving DecidableEq

/-! ## Tile file header -/

/-- The scalar member types used by the map file headers. -/
inductive CType where
  | uint8
  | uint16
  | uint32
  | float
deriving DecidableEq, Repr

/-- Result of `sizeof` for a scalar type, in bytes. -/
def CType.sizeof : CType → Nat
  | .uint8 => 1
  | .uint16 => 2
  | .uint32 => 4
  | .float => 4

/-- Result of `alignof` for a scalar type: scalars are naturally aligned. -/
def CType.alignof : CType → Nat
  | .uint8 => 1
  | .uint16 => 2
  | .uint32 => 4
  | .float => 4

/-- The members of `struct map_fileheader`. -/
inductive map_fileheader.Member where
  | mapMagic
  | versionMagic
  | buildMagic
  | areaMapOffset
  | areaMapSize
  | heightMapOffset
  | heightMapSize
  | liquidMapOffset
  | liquidMapSize
  | holesOffset
  | holesSize
deriving DecidableEq, Repr

/-- The declaration of `struct map_fileheader`: each member with its type, in
declaration order. -/
def map_fileheader.members : List (map_fileheader.Member × CType) :=
  [ (.mapMagic, .uint32),
    (.versionMagic, .uint32),
    (.buildMagic, .uint32),
    (.areaMapOffset, .uint32),
    (.areaMapSize, .uint32),
    (.heightMapOffset, .uint32),
    (.heightMapSize, .uint32),
    (.liquidMapOffset, .uint32),
    (.liquidMapSize, .uint32),
    (.holesOffset, .uint32),
    (.holesSize, .uint32) ]

/-- The least multiple of `a` that is at least `n`. -/
def alignUp (n a : Nat) : Nat := (n + a - 1) / a * a

/-- Standard struct layout: starting at byte `start`, each member is placed at
the next multiple of its alignment; the result lists every member with its
byte index. -/
def layoutFrom {μ : Type} (start : Nat) : List (μ × CType) → List (μ × Nat)
  | [] => []
  | (f, t) :: rest =>
    (f, alignUp start t.alignof) :: layoutFrom (alignUp start t.alignof + t.sizeof) rest

/-- The byte index one past the last member when the layout starts at `start`. -/
def layoutEnd {μ : Type} (start : Nat) : List (μ × CType) → Nat
  | [] => start
  | (_, t) :: rest => layoutEnd (alignUp start t.alignof + t.sizeof) rest

/-- The alignment of a struct: the largest alignment among its members. -/
def structAlign {μ : Type} (members : List (μ × CType)) : Nat :=
  members.foldl (fun a p => max a p.2.alignof) 1

/-- Result of `sizeof` for a struct: the end of the last member rounded up to
the alignment of the struct. -/
def structSizeof {μ : Type} (members : List (μ × CType)) : Nat :=
  alignUp (layoutEnd 0 members) (structAlign members)

/-- Result of `offsetof` for a member of a struct (`none` if there is no such
member). -/
def structOffsetof {μ : Type} [DecidableEq μ] (members : List (μ × CType)) (f : μ) : Option Nat :=
  ((layoutFrom 0 members).find? (fun p => decide (p.1 = f))).map Prod.snd

/-- The four sections of a tile file in the order the specification lists
them (area, height, liquid, holes): for the `k`-th one, the header member
holding its offset. -/
def map_fileheader.sectionOffset : Fin 4 → map_fileheader.Member
  | 0 => .areaMapOffset
  | 1 => .heightMapOffset
  | 2 => .liquidMapOffset
  | 3 => .holesOffset

/-- The header member holding the size of the `k`-th section (area, height,
liquid, holes). -/
def map_fileheader.sectionSize : Fin 4 → map_fileheader.Member
  | 0 => .areaMapSize
  | 1 => .heightMapSize
  | 2 => .liquidMapSize
  | 3 => .holesSize

/-! ## Ray against axis-aligned box (`VMapTools.h`): reading over exact rationals

The function read over `ℚ`: no rounding, no infinity, no NaN, a single zero.
The embedding in `float` arithmetic is `VMAP.MyCollisionDetection` further
down. When the origin is in the box only comparisons of finite values run and
the two readings coincide. -/

/-- A `G3D::Vector3`, with exact rational components. -/
structure Vector3 where
  x : ℚ
  y : ℚ
  z : ℚ
deriving DecidableEq

/-- The component `v[i]`. -/
def Vector3.get (v : Vector3) : Nat → ℚ
  | 0 => v.x
  | 1 => v.y
  | _ => v.z

/-- The assignment `v[i] = a`. -/
def Vector3.set (v : Vector3) (i : Nat) (a : ℚ) : Vector3 :=
  match i with
  | 0 => { v with x := a }
  | 1 => { v with y := a }
  | _ => { v with z := a }

/-- A `G3D::AABox`, by its two corners. -/
structure AABox where
  lo : Vector3
  hi : Vector3
deriving DecidableEq

/-- The accessor `box.low()`. -/
def AABox.low (box : AABox) : Vector3 := box.lo

/-- The accessor `box.high()`. -/
def AABox.high (box : AABox) : Vector3 := box.hi

namespace MyCollisionDetection

/-- The locals written by the first loop ("Find candidate planes"). -/
structure Candidates where
  location : Vector3
  Inside : Bool
  MaxT : Vector3
deriving DecidableEq

/-- One iteration of the first loop, for the axis `i`. The test `IR(dir[i])`
(the bits of `dir[i]` are not all zero) is `dir[i] ≠ 0` on exact numbers.

```
if (origin[i] < MinB[i]) {
    location[i] = MinB[i]; Inside = false;
    if (IR(dir[i])) MaxT[i] = (MinB[i] - origin[i]) / dir[i];
} else if (origin[i] > MaxB[i]) {
    location[i] = MaxB[i]; Inside = false;
    if (IR(dir[i])) MaxT[i] = (MaxB[i] - origin[i]) / dir[i];
}
```
-/
def candidateStep (origin dir MinB MaxB : Vector3) (s : Candidates) (i : Nat) : Candidates :=
  if origin.get i < MinB.get i then
    { location := s.location.set i (MinB.get i)
      Inside := false
      MaxT := if dir.get i ≠ 0 then s.MaxT.set i ((MinB.get i - origin.get i) / dir.get i)
              else s.MaxT }
  else if origin.get i > MaxB.get i then
    { location := s.location.set i (MaxB.get i)
      Inside := false
      MaxT := if dir.get i ≠ 0 then s.MaxT.set i ((MaxB.get i - origin.get i) / dir.get i)
              else s.MaxT }
  else s

/-- The first loop, `for (int i = 0; i < 3; ++i)`, entered with `Inside = true`
and `MaxT = (-1, -1, -1)`. -/
def findCandidatePlanes (origin dir MinB MaxB location : Vector3) : Candidates :=
  [0, 1, 2].foldl (candidateStep origin dir MinB MaxB)
    { location := location, Inside := true, MaxT := ⟨-1, -1, -1⟩ }

/-- The index `WhichPlane` of the largest of the `MaxT`.

```
int WhichPlane = 0;
if (MaxT[1] > MaxT[WhichPlane]) WhichPlane = 1;
if (MaxT[2] > MaxT[WhichPlane]) WhichPlane = 2;
```
-/
def whichPlane (MaxT : Vector3) : Nat :=
  let w1 := if MaxT.get 1 > MaxT.get 0 then 1 else 0
  if MaxT.get 2 > MaxT.get w1 then 2 else w1

/-- One iteration of the last loop, for the axis `i`, on the pair
(`location`, "the function has already returned false").

```
if (i != WhichPlane) {
    location[i] = origin[i] + MaxT[WhichPlane] * dir[i];
    if ((location[i] < MinB[i]) || (location[i] > MaxB[i])) return false;
}
```
-/
def extentStep (origin dir MinB MaxB MaxT : Vector3) (WhichPlane : Nat)
    (s : Vector3 × Bool) (i : Nat) : Vector3 × Bool :=
  if s.2 then s
  else if i ≠ WhichPlane then
    let location := s.1.set i (origin.get i + MaxT.get WhichPlane * dir.get i)
    if location.get i < MinB.get i ∨ location.get i > MaxB.get i then (location, true)
    else (location, false)
  else s

/-- What a call leaves behind: the returned flag and the two out-parameters. -/
structure Outcome where
  result : Bool
  location : Vector3
  Inside : Bool
deriving DecidableEq

/-- The static member
`MyCollisionDetection::collisionLocationForMovingPointFixedAABox(origin, dir, box, location, Inside)`;
`location` is the value of the out-parameter on entry (components the
function does not assign keep it). The sign-bit test
`IR(MaxT[WhichPlane]) & 0x80000000` is `MaxT[WhichPlane] < 0` on exact numbers. -/
def collisionLocationForMovingPointFixedAABox (origin dir : Vector3) (box : AABox)
    (location : Vector3) : Outcome :=
  let MinB := box.low
  let MaxB := box.high
  let c := findCandidatePlanes origin dir MinB MaxB location
  if c.Inside then
    { result := true, location := origin, Inside := true }
  else
    let WhichPlane := whichPlane c.MaxT
    if c.MaxT.get WhichPlane < 0 then
      { result := false, location := c.location, Inside := false }
    else
      let e := [0, 1, 2].foldl (extentStep origin dir MinB MaxB c.MaxT WhichPlane)
        (c.location, false)
      { result := !e.2, location := e.1, Inside := false }

end MyCollisionDetection

/-! ## Active non-player objects -/

/-- A `WorldObject*`, by its address. -/
abbrev WorldObjectPtr := Nat

/-- A `std::set<WorldObject*>`: the stored pointers in increasing order. -/
abbrev StdSet := List WorldObjectPtr

/-- Container invariant of `std::set`: the elements are strictly increasing
(so none is stored twice). -/
def StdSet.Ordered (s : StdSet) : Prop := List.Pairwise (fun a b => a < b) s

instance (s : StdSet) : Decidable (StdSet.Ordered s) :=
  inferInstanceAs (Decidable (List.Pairwise (fun a b => a < b) s))

/-- A `std::set<WorldObject*>::iterator`: the element it designates, `none`
for `end()`. Iterators of a `std::set` stay attached to their element when
other elements are inserted or erased. -/
abbrev StdSetIterator := Option WorldObjectPtr

/-- The lookup `find(key)`: an iterator to the element equal to `key`, or `end()`. -/
def StdSet.find (s : StdSet) (key : WorldObjectPtr) : StdSetIterator :=
  List.find? (fun a => decide (a = key)) s

/-- The increment `++it` of an iterator designating `cur`: the element stored
right after `cur`, or `end()` when `cur` is the last one. -/
def StdSet.next : StdSet → WorldObjectPtr → StdSetIterator
  | [], _ => none
  | a :: rest, cur => if a = cur then rest.head? else StdSet.next rest cur

/-- The removals `erase(it)` for an iterator designating `key` and `erase(key)`. -/
def StdSet.erase (s : StdSet) (key : WorldObjectPtr) : StdSet := List.erase s key

/-- The data members of `class Map` used by the active-object helpers. -/
structure ActiveObjects where
  /-- Field `ActiveNonPlayers _activeNonPlayers`. -/
  _activeNonPlayers : StdSet := []
  /-- Field `ActiveNonPlayers::iterator _activeNonPlayersIter`. -/
  _activeNonPlayersIter : StdSetIterator := none
deriving DecidableEq, Repr

/-- The member `Map::AddToActiveHelper(WorldObject* obj)`:
`_activeNonPlayers.insert(obj)`. -/
def ActiveObjects.AddToActiveHelper (m : ActiveObjects) (obj : WorldObjectPtr) : ActiveObjects :=
  { m with _activeNonPlayers :=
      if obj ∈ m._activeNonPlayers then m._activeNonPlayers
      else List.orderedInsert (fun a b => a ≤ b) obj m._activeNonPlayers }

/-- The member `Map::RemoveFromActiveHelper(WorldObject* obj)`.

```
if (_activeNonPlayersIter != _activeNonPlayers.end()) {
    ActiveNonPlayers::iterator itr = _activeNonPlayers.find(obj);
    if (itr == _activeNonPlayers.end()) return;
    if (itr == _activeNonPlayersIter) ++_activeNonPlayersIter;
    _activeNonPlayers.erase(itr);
} else
    _activeNonPlayers.erase(obj);
```
-/
def ActiveObjects.RemoveFromActiveHelper (m : ActiveObjects) (obj : WorldObjectPtr) :
    ActiveObjects :=
  match m._activeNonPlayersIter with
  | some cur =>
    match StdSet.find m._activeNonPlayers obj with
    | none => m
    | some itr =>
      { _activeNonPlayers := StdSet.erase m._activeNonPlayers itr
        _activeNonPlayersIter :=
          if itr = cur then StdSet.next m._activeNonPlayers cur else some cur }
  | none => { m with _activeNonPlayers := StdSet.erase m._activeNonPlayers obj }

/-! ## Visiting a cell -/

/-- A `Cell`, by the results of its accessors `GridX()`, `GridY()`, `CellX()`,
`CellY()` and `NoCreate()`. -/
structure Cell where
  GridX : Nat
  GridY : Nat
  CellX : Nat
  CellY : Nat
  NoCreate : Bool
deriving DecidableEq, Repr

/-- A call made by `Map::Visit`. -/
inductive VisitCall where
  /-- The call `EnsureGridLoaded(cell)`. -/
  | EnsureGridLoaded (cell : Cell)
  /-- The call `getNGrid(x, y)->VisitGrid(cell_x, cell_y, visitor)`. -/
  | VisitGrid (x y cell_x cell_y : Nat)
deriving DecidableEq, Repr

/-- The members of `Map` that `Map::Visit` calls and that are defined outside
the header, over a grid state `σ` and a visitor state `V`. -/
structure GridOps (σ V : Type) where
  /-- The const member `Map::IsGridLoaded(GridCoord(x, y))`. -/
  IsGridLoaded : σ → Nat → Nat → Bool
  /-- The member `Map::EnsureGridLoaded(cell)`: the grids it leaves (its result
  is discarded by `Visit`). -/
  EnsureGridLoaded : σ → Cell → σ
  /-- The call `getNGrid(x, y)->VisitGrid(cell_x, cell_y, visitor)`: the grids
  and the visitor it leaves. -/
  VisitGrid : σ → Nat → Nat → Nat → Nat → V → σ × V

/-- What a call of `Map::Visit` leaves: the grids, the visitor, and the calls
it made, in order. -/
structure VisitOutcome (σ V : Type) where
  grids : σ
  visitor : V
  calls : List VisitCall

/-- The member template `Map::Visit(Cell const& cell, TypeContainerVisitor& visitor)`.

```
const uint32 x = cell.GridX();  const uint32 y = cell.GridY();
const uint32 cell_x = cell.CellX();  const uint32 cell_y = cell.CellY();
if (!cell.NoCreate() || IsGridLoaded(GridCoord(x, y))) {
    EnsureGridLoaded(cell);
    getNGrid(x, y)->VisitGrid(cell_x, cell_y, visitor);
}
```
-/
def Map.Visit {σ V : Type} (ops : GridOps σ V) (grids : σ) (cell : Cell) (visitor : V) :
    VisitOutcome σ V :=
  let x := cell.GridX
  let y := cell.GridY
  let cell_x := cell.CellX
  let cell_y := cell.CellY
  if !cell.NoCreate || ops.IsGridLoaded grids x y then
    let grids1 := ops.EnsureGridLoaded grids cell
    let r := ops.VisitGrid grids1 x y cell_x cell_y visitor
    { grids := r.1, visitor := r.2,
      calls := [VisitCall.EnsureGridLoaded cell, VisitCall.VisitGrid x y cell_x cell_y] }
  else
    { grids := grids, visitor := visitor, calls := [] }

namespace MyCollisionDetection

/-- Closed form of `MaxT[i]` after the first loop, from the values on axis
`i` alone: the distance to the candidate plane when the origin is outside the
slab and the direction component is not zero, the initial `-1` otherwise. -/
def axisMaxT (o d lo hi : ℚ) : ℚ :=
  if o < lo then (if d ≠ 0 then (lo - o) / d else -1)
  else if o > hi then (if d ≠ 0 then (hi - o) / d else -1)
  else -1

/-- Closed form of `location[i]` after the first loop: the candidate plane when
the origin is outside the slab, the value on entry `l` otherwise. -/
def axisPlane (o lo hi l : ℚ) : ℚ :=
  if o < lo then lo else if o > hi then hi else l

/-- The point `origin + t * dir`. -/
def pointAt (origin dir : Vector3) (t : ℚ) : Vector3 :=
  ⟨origin.x + t * dir.x, origin.y + t * dir.y, origin.z + t * dir.z⟩

/-- The point lies in the closed box. -/
def inBox (box : AABox) (p : Vector3) : Prop :=
  ∀ i, i < 3 → box.low.get i ≤ p.get i ∧ p.get i ≤ box.high.get i

end MyCollisionDetection

/-! ## Binary32 arithmetic

The `float` of the collision code is IEEE 754 binary32: every operation is
rounded to the nearest binary32 value, ties to even, each operation on its
own (no fused multiply-add, no wider intermediate). -/

/-- A `float` (IEEE 754 binary32) value. A finite value other than `-0.0` is
given by its exact rational value (`fin 0` is `+0.0`, `nzero` is `-0.0`); of a
NaN only the sign bit is kept. The type is wider than the floats: `fin v` is a
`float` only for the rationals `v` that binary32 represents, which are the
values the operations below return. -/
inductive F32 where
  | nan (sign : Bool)
  | inf (sign : Bool)
  | nzero
  | fin (v : ℚ)
deriving DecidableEq

/-- The sign bit of the value. -/
def F32.sign : F32 → Bool
  | .nan s => s
  | .inf s => s
  | .nzero => true
  | .fin v => decide (v < 0)

/-- The rational value of a finite float (`0` for both zeros; `0` also for the
infinities and the NaNs, which have none). -/
def F32.val : F32 → ℚ
  | .fin v => v
  | _ => 0

/-- The value is neither an infinity nor a NaN. -/
def F32.isFinite : F32 → Bool
  | .fin _ => true
  | .nzero => true
  | _ => false

/-- The value is `+0.0` or `-0.0`. -/
def F32.isZero : F32 → Bool
  | .fin v => decide (v = 0)
  | .nzero => true
  | _ => false

/-- The zero with the given sign bit. -/
def F32.zero (sign : Bool) : F32 := if sign then .nzero else .fin 0

/-- The position of the highest set bit of `n`, found in at most `fuel`
halvings (`0` for `n < 2`). -/
def F32.log2Aux : Nat → Nat → Nat
  | 0, _ => 0
  | fuel + 1, n => if n < 2 then 0 else F32.log2Aux fuel (n / 2) + 1

/-- The exponent `⌊log2 a⌋` of a positive rational. -/
def F32.ilog2 (a : ℚ) : Int :=
  let k : Int := (F32.log2Aux a.num.toNat a.num.toNat : Int) - (F32.log2Aux a.den a.den : Int)
  if a < (2 : ℚ) ^ k then k - 1 else k

/-- Round a positive magnitude to the nearest binary32 magnitude, ties to even
(24-bit significand, least exponent `-126`, subnormals included); `none` when
the rounded magnitude is beyond the largest finite value. -/
def F32.roundMag (a : ℚ) : Option ℚ :=
  let e : Int := F32.ilog2 a
  let q : Int := max e (-126) - 23
  let s : ℚ := a / (2 : ℚ) ^ q
  let f : Int := Int.floor s
  let r : Int :=
    if s - f < 1 / 2 then f
    else if s - f > 1 / 2 then f + 1
    else if f % 2 = 0 then f else f + 1
  let m : ℚ := r * (2 : ℚ) ^ q
  if m ≥ (2 : ℚ) ^ (128 : Int) then none else some m

/-- The binary32 value nearest to the real number of sign `sign` and magnitude
`a ≥ 0`: a signed zero on underflow, a signed infinity on overflow. -/
def F32.round (sign : Bool) (a : ℚ) : F32 :=
  if a = 0 then F32.zero sign
  else
    match F32.roundMag a with
    | none => .inf sign
    | some m => if m = 0 then F32.zero sign else .fin (if sign then -m else m)

/-- The sum `a + b`. A NaN operand is returned (the first one when both are);
`dn` is the sign bit of the NaN that an invalid operation produces (set on
x86-64). -/
def F32.add (dn : Bool) : F32 → F32 → F32
  | .nan s, _ => .nan s
  | _, .nan s => .nan s
  | .inf s, .inf t => if s = t then .inf s else .nan dn
  | .inf s, _ => .inf s
  | _, .inf t => .inf t
  | a, b =>
    let x := a.val + b.val
    if x = 0 then F32.zero (a.sign && b.sign) else F32.round (decide (x < 0)) |x|

/-- The difference `a - b`. -/
def F32.sub (dn : Bool) : F32 → F32 → F32
  | .nan s, _ => .nan s
  | _, .nan s => .nan s
  | .inf s, .inf t => if s = t then .nan dn else .inf s
  | .inf s, _ => .inf s
  | _, .inf t => .inf (!t)
  | a, b =>
    let x := a.val - b.val
    if x = 0 then F32.zero (a.sign && !b.sign) else F32.round (decide (x < 0)) |x|

/-- The product `a * b`. -/
def F32.mul (dn : Bool) : F32 → F32 → F32
  | .nan s, _ => .nan s
  | _, .nan s => .nan s
  | .inf s, b => if b.isZero then .nan dn else .inf (xor s b.sign)
  | a, .inf t => if a.isZero then .nan dn else .inf (xor a.sign t)
  | a, b => F32.round (xor a.sign b.sign) (|a.val| * |b.val|)

/-- The quotient `a / b`. -/
def F32.div (dn : Bool) : F32 → F32 → F32
  | .nan s, _ => .nan s
  | _, .nan s => .nan s
  | .inf _, .inf _ => .nan dn
  | .inf s, b => .inf (xor s b.sign)
  | a, .inf t => F32.zero (xor a.sign t)
  | a, b =>
    if b.isZero then (if a.isZero then .nan dn else .inf (xor a.sign b.sign))
    else F32.round (xor a.sign b.sign) (|a.val| / |b.val|)

/-- The comparison `a < b` (false when an operand is a NaN). -/
def F32.lt : F32 → F32 → Bool
  | .nan _, _ => false
  | _, .nan _ => false
  | .inf s, .inf t => s && !t
  | .inf s, _ => s
  | _, .inf t => !t
  | a, b => decide (a.val < b.val)

/-- The comparison `a > b`. -/
def F32.gt (a b : F32) : Bool := F32.lt b a

/-- The test `IR(x)`: the 32 bits of the value are not all zero, that is, the
value is not `+0.0`. -/
def F32.IR (x : F32) : Bool := decide (x ≠ .fin 0)

/-- The test `IR(x) & 0x80000000`: the sign bit is set. -/
def F32.signBit (x : F32) : Bool := x.sign

/-- The float `x` is finite and its value is exactly the real number `q`. -/
def F32.Exact (x : F32) (q : ℚ) : Prop := x.isFinite = true ∧ x.val = q

instance (x : F32) (q : ℚ) : Decidable (F32.Exact x q) := by
  unfold F32.Exact
  infer_instance

/-! ## Ray against axis-aligned box in binary32 (`VMapTools.h`) -/

namespace G3D

/-- A `G3D::Vector3`: three `float` components. -/
structure Vector3 where
  x : F32
  y : F32
  z : F32
deriving DecidableEq

/-- The component `v[i]`. -/
def Vector3.get (v : Vector3) : Nat → F32
  | 0 => v.x
  | 1 => v.y
  | _ => v.z

/-- The assignment `v[i] = a`. -/
def Vector3.set (v : Vector3) (i : Nat) (a : F32) : Vector3 :=
  match i with
  | 0 => { v with x := a }
  | 1 => { v with y := a }
  | _ => { v with z := a }

/-- The rational values of the three components. -/
def Vector3.val (v : Vector3) : WarheadBand.Vector3 := ⟨v.x.val, v.y.val, v.z.val⟩

/-- All three components are finite. -/
def Vector3.isFinite (v : Vector3) : Bool := v.x.isFinite && v.y.isFinite && v.z.isFinite

/-- A `G3D::AABox`, by its two corners. -/
structure AABox where
  lo : Vector3
  hi : Vector3
deriving DecidableEq

/-- The accessor `box.low()`. -/
def AABox.low (box : AABox) : Vector3 := box.lo

/-- The accessor `box.high()`. -/
def AABox.high (box : AABox) : Vector3 := box.hi

/-- The rational values of the two corners. -/
def AABox.val (box : AABox) : WarheadBand.AABox := ⟨box.lo.val, box.hi.val⟩

end G3D

namespace VMAP.MyCollisionDetection

/-- The locals written by the first loop ("Find candidate planes"). -/
structure Candidates where
  location : G3D.Vector3
  Inside : Bool
  MaxT : G3D.Vector3
deriving DecidableEq

/-- One iteration of the first loop, for the axis `i`, in `float` arithmetic.

```
if (origin[i] < MinB[i]) {
    location[i] = MinB[i]; Inside = false;
    if (IR(dir[i])) MaxT[i] = (MinB[i] - origin[i]) / dir[i];
} else if (origin[i] > MaxB[i]) {
    location[i] = MaxB[i]; Inside = false;
    if (IR(dir[i])) MaxT[i] = (MaxB[i] - origin[i]) / dir[i];
}
```
-/
def candidateStep (dn : Bool) (origin dir MinB MaxB : G3D.Vector3) (s : Candidates) (i : Nat) :
    Candidates :=
  if F32.lt (origin.get i) (MinB.get i) then
    { location := s.location.set i (MinB.get i)
      Inside := false
      MaxT :=
        if F32.IR (dir.get i) then
          s.MaxT.set i (F32.div dn (F32.sub dn (MinB.get i) (origin.get i)) (dir.get i))
        else s.MaxT }
  else if F32.gt (origin.get i) (MaxB.get i) then
    { location := s.location.set i (MaxB.get i)
      Inside := false
      MaxT :=
        if F32.IR (dir.get i) then
          s.MaxT.set i (F32.div dn (F32.sub dn (MaxB.get i) (origin.get i)) (dir.get i))
        else s.MaxT }
  else s

/-- The first loop, `for (int i = 0; i < 3; ++i)`, entered with `Inside = true`
and `MaxT = (-1.0f, -1.0f, -1.0f)`. -/
def findCandidatePlanes (dn : Bool) (origin dir MinB MaxB location : G3D.Vector3) : Candidates :=
  [0, 1, 2].foldl (candidateStep dn origin dir MinB MaxB)
    { location := location, Inside := true, MaxT := ⟨.fin (-1), .fin (-1), .fin (-1)⟩ }

/-- The index `WhichPlane` of the largest of the `MaxT`.

```
int WhichPlane = 0;
if (MaxT[1] > MaxT[WhichPlane]) WhichPlane = 1;
if (MaxT[2] > MaxT[WhichPlane]) WhichPlane = 2;
```
-/
def whichPlane (MaxT : G3D.Vector3) : Nat :=
  let w1 := if F32.gt (MaxT.get 1) (MaxT.get 0) then 1 else 0
  if F32.gt (MaxT.get 2) (MaxT.get w1) then 2 else w1

/-- One iteration of the last loop, for the axis `i`, on the pair
(`location`, "the function has already returned false").

```
if (i != WhichPlane) {
    location[i] = origin[i] + MaxT[WhichPlane] * dir[i];
    if ((location[i] < MinB[i]) || (location[i] > MaxB[i])) return false;
}
```
-/
def extentStep (dn : Bool) (origin dir MinB MaxB MaxT : G3D.Vector3) (WhichPlane : Nat)
    (s : G3D.Vector3 × Bool) (i : Nat) : G3D.Vector3 × Bool :=
  if s.2 then s
  else if i ≠ WhichPlane then
    let location :=
      s.1.set i (F32.add dn (origin.get i) (F32.mul dn (MaxT.get WhichPlane) (dir.get i)))
    if F32.lt (location.get i) (MinB.get i) || F32.gt (location.get i) (MaxB.get i) then
      (location, true)
    else (location, false)
  else s

/-- What a call leaves behind: the returned flag and the two out-parameters. -/
structure Outcome where
  result : Bool
  location : G3D.Vector3
  Inside : Bool
deriving DecidableEq

/-- The static member
`VMAP::MyCollisionDetection::collisionLocationForMovingPointFixedAABox`, called
as `(origin, dir, box, location, Inside)`, in `float` arithmetic; `location` is
the value of the out-parameter on entry (components the function does not
assign keep it). -/
def collisionLocationForMovingPointFixedAABox (dn : Bool) (origin dir : G3D.Vector3)
    (box : G3D.AABox) (location : G3D.Vector3) : Outcome :=
  let MinB := box.low
  let MaxB := box.high
  let c := findCandidatePlanes dn origin dir MinB MaxB location
  if c.Inside then
    { result := true, location := origin, Inside := true }
  else
    let WhichPlane := whichPlane c.MaxT
    if F32.signBit (c.MaxT.get WhichPlane) then
      { result := false, location := c.location, Inside := false }
    else
      let e := [0, 1, 2].foldl (extentStep dn origin dir MinB MaxB c.MaxT WhichPlane)
        (c.location, false)
      { result := !e.2, location := e.1, Inside := false }

/-- The candidate plane of one axis in the first loop: `MinB[i]` when
`origin[i] < MinB[i]`, `MaxB[i]` when `origin[i] > MaxB[i]`, none when the
origin is within the slab. -/
def candidatePlane (o lo hi : F32) : Option F32 :=
  if F32.lt o lo then some lo else if F32.gt o hi then some hi else none

/-- Closed form of `MaxT[i]` after the first loop, from the values on axis `i`
alone. -/
def axisMaxT (dn : Bool) (o d lo hi : F32) : F32 :=
  match candidatePlane o lo hi with
  | some b => if F32.IR d then F32.div dn (F32.sub dn b o) d else .fin (-1)
  | none => .fin (-1)

/-- Closed form of `location[i]` after the first loop. -/
def axisPlane (o lo hi l : F32) : F32 :=
  match candidatePlane o lo hi with
  | some b => b
  | none => l

/-- The arithmetic of a call is exact: all coordinates of `origin`, `dir` and
`box` are finite, and on every axis `i` where the origin is outside the slab
and the bits of `dir[i]` are not zero, the computed candidate distance
`(plane - origin[i]) / dir[i]` is the exact quotient and each coordinate
`origin[j] + distance * dir[j]` computed from it, `j ≠ i`, is the exact value. -/
def ExactArithmetic (dn : Bool) (origin dir : G3D.Vector3) (box : G3D.AABox) : Prop :=
  (origin.isFinite = true ∧ dir.isFinite = true ∧
    box.low.isFinite = true ∧ box.high.isFinite = true) ∧
  ∀ i, i < 3 →
    ∀ b ∈ candidatePlane (origin.get i) (box.low.get i) (box.high.get i),
      F32.IR (dir.get i) = true →
      F32.Exact (F32.div dn (F32.sub dn b (origin.get i)) (dir.get i))
        ((b.val - (origin.get i).val) / (dir.get i).val) ∧
      ∀ j, j < 3 → j ≠ i →
        F32.Exact
          (F32.add dn (origin.get j)
            (F32.mul dn (F32.div dn (F32.sub dn b (origin.get i)) (dir.get i)) (dir.get j)))
          ((origin.get j).val + (b.val - (origin.get i).val) / (dir.get i).val * (dir.get j).val)

instance (dn : Bool) (origin dir : G3D.Vector3) (box : G3D.AABox) :
    Decidable (ExactArithmetic dn origin dir box) := by
  unfold ExactArithmetic
  infer_instance

end VMAP.MyCollisionDetection

/-! ## Chat handler (`Chat.cpp`) -/

/-- The characters of a `std::string`, `std::string_view` or C string. -/
abbrev Text := List Char

/-- The character `'\n'`. -/
def NEWLINE : Char := Char.ofNat 10

/-- The character `'|'`. -/
def PIPE : Char := Char.ofNat 124

/-- The character `'"'`. -/
def DQUOTE : Char := Char.ofNat 34

/-- The character `' '`. -/
def SPACE : Char := Char.ofNat 32

/-- The character `'.'`. -/
def DOT : Char := Char.ofNat 46

/-- The character `'!'`. -/
def BANG : Char := Char.ofNat 33

/-- A value written into a `WorldPacket` by `operator<<`; the chat type and the
language are kept by name. -/
inductive PacketField where
  /-- The write `data << uint8(chatType)` with `CHAT_MSG_SYSTEM`. -/
  | chatType_CHAT_MSG_SYSTEM
  /-- The write `data << int32(language)` with `LANG_UNIVERSAL`. -/
  | language_LANG_UNIVERSAL
  | uint8 (v : Nat)
  | uint32 (v : Nat)
  | guid (g : ObjectGuid)
  | string (s : Text)
deriving DecidableEq, Repr

/-- A `WorldPacket`: the values written into it after `Initialize`. -/
abbrev WorldPacket := List PacketField

/-- The packet built by
`BuildChatPacket(data, CHAT_MSG_SYSTEM, LANG_UNIVERSAL, nullptr, nullptr, message)`:
with no sender and no receiver the GUIDs are empty, the chat tag is `0`,
`gmMessage` is false, and the `switch` takes its `default` branch.

```
data << uint8(chatType);  data << int32(language);  data << senderGUID;
data << uint32(0);
/* default: */  data << receiverGUID;
data << uint32(message.length() + 1);  data << message;  data << uint8(chatTag);
```
-/
def BuildChatPacket (message : Text) : WorldPacket :=
  [ PacketField.chatType_CHAT_MSG_SYSTEM,
    PacketField.language_LANG_UNIVERSAL,
    PacketField.guid 0,
    PacketField.uint32 0,
    PacketField.guid 0,
    PacketField.uint32 (message.length + 1),
    PacketField.string message,
    PacketField.uint8 0 ]

/-- The message text a packet built by `BuildChatPacket` carries. -/
def WorldPacket.message (p : WorldPacket) : Option Text :=
  p.findSome? (fun f => match f with
    | PacketField.string s => some s
    | _ => none)

/-- A `WorldSession`, by what the chat handler reads from it and sends to it. -/
structure WorldSession where
  /-- Result of `GetSecurity()`. -/
  security : Nat := 0
  /-- The packets passed to `SendPacket`, oldest first. -/
  sent : List WorldPacket := []
deriving DecidableEq, Repr

/-- The data members of `class ChatHandler`. -/
structure ChatHandler where
  /-- Field `WorldSession* m_session`; `none` is `nullptr` (console). -/
  m_session : Option WorldSession := none
  /-- Field `bool sentErrorMessage`, written by `SetSentErrorMessage`. -/
  sentErrorMessage : Bool := false
deriving DecidableEq, Repr

/-- The call `m_session->SendPacket(&data)`; `none` when `m_session` is
`nullptr` (the call dereferences a null pointer). -/
def ChatHandler.SendPacket (h : ChatHandler) (data : WorldPacket) : Option ChatHandler :=
  match h.m_session with
  | none => none
  | some s => some { h with m_session := some { s with sent := s.sent ++ [data] } }

/-- The loop of `SendSysMessage` that concatenates the tokens with `"||"`
between them; `none` when there is no token (`tokens.size() - 1` wraps around
and the loop reads past the end).

```
for (size_t i = 0; i < tokens.size() - 1; ++i) stream << tokens[i] << "||";
stream << tokens[tokens.size() - 1];
```
-/
def joinEscaped : List Text → Option Text
  | [] => none
  | [t] => some t
  | t :: u :: rest => (joinEscaped (u :: rest)).map (fun r => t ++ [PIPE, PIPE] ++ r)

/-- What a call of `ChatHandler::SendSysMessage` leaves: the handler (with the
packets sent to its session) and the final value of the local `msg`. -/
structure SendSysMessageOutcome where
  handler : ChatHandler
  msg : Text
deriving DecidableEq, Repr

/-- The member `ChatHandler::SendSysMessage(std::string_view str, bool escapeCharacters)`,
over the tokenizer `Warhead::Tokenize(text, sep, keepEmpty)`, which is defined
outside the sources at hand; `none` when the call runs into undefined
behaviour.

```
std::string msg{ str };
if (escapeCharacters && msg.find('|') != std::string::npos) {
    std::vector<std::string_view> tokens = Warhead::Tokenize(msg, '|', true);
    ... msg = stream.str();
}
WorldPacket data;
for (std::string_view line : Warhead::Tokenize(str, '\n', true)) {
    BuildChatPacket(data, CHAT_MSG_SYSTEM, LANG_UNIVERSAL, nullptr, nullptr, line);
    m_session->SendPacket(&data);
}
```
-/
def ChatHandler.SendSysMessage (Tokenize : Text → Char → Bool → List Text) (h : ChatHandler)
    (str : Text) (escapeCharacters : Bool) : Option SendSysMessageOutcome :=
  let msg0 : Text := str
  let msg : Option Text :=
    if escapeCharacters && msg0.contains PIPE then joinEscaped (Tokenize msg0 PIPE true)
    else some msg0
  match msg with
  | none => none
  | some msg1 =>
    match (Tokenize str NEWLINE true).foldlM
        (fun (h1 : ChatHandler) (line : Text) => h1.SendPacket (BuildChatPacket line)) h with
    | none => none
    | some h2 => some { handler := h2, msg := msg1 }

/-- A tokenizer that cuts the text at every separator: the pieces between
separators, empty ones included. -/
def splitAtEvery (sep : Char) : Text → List Text
  | [] => [[]]
  | c :: cs =>
    if c = sep then [] :: splitAtEvery sep cs
    else
      match splitAtEvery sep cs with
      | [] => [[c]]
      | t :: ts => (c :: t) :: ts

/-- The usual reading of `Tokenize(text, sep, keepEmpty)`: the pieces between
separators, the empty ones dropped unless `keepEmpty`. -/
def cutTokenize (text : Text) (sep : Char) (keepEmpty : Bool) : List Text :=
  if keepEmpty then splitAtEvery sep text
  else (splitAtEvery sep text).filter (fun t => !t.isEmpty)

/-- The text with every `'|'` replaced by `"||"`. -/
def escapePipes : Text → Text
  | [] => []
  | c :: cs => if c = PIPE then PIPE :: PIPE :: escapePipes cs else c :: escapePipes cs

/-- The collaborators of the command parser that are defined outside the
sources at hand. -/
structure ChatEnv where
  /-- The call `Warhead::ChatCommands::TryExecuteCommand(*this, text)`: its
  result and the handler it leaves. -/
  TryExecuteCommand : ChatHandler → Text → Bool × ChatHandler
  /-- The predicate `AccountMgr::IsPlayerAccount(security)`. -/
  IsPlayerAccount : Nat → Bool
  /-- The setting `CONF_GET_BOOL("AllowPlayerCommands")`. -/
  AllowPlayerCommands : Bool
  /-- The call `PSendSysMessage(LANG_CMD_INVALID, text)`: the handler it leaves. -/
  PSendSysMessage_CMD_INVALID : ChatHandler → Text → ChatHandler
  /-- The constant `Warhead::Impl::ChatCommands::COMMAND_DELIMITER`. -/
  COMMAND_DELIMITER : Char

/-- The member `ChatHandler::SetSentErrorMessage(bool)`. -/
def ChatHandler.SetSentErrorMessage (h : ChatHandler) (val : Bool) : ChatHandler :=
  { h with sentErrorMessage := val }

/-- The member `ChatHandler::_ParseCommands(std::string_view text)`: its result
and the handler it leaves.

```
if (Warhead::ChatCommands::TryExecuteCommand(*this, text)) return true;
if (m_session && AccountMgr::IsPlayerAccount(m_session->GetSecurity())
        && !CONF_GET_BOOL("AllowPlayerCommands"))
    return false;
PSendSysMessage(LANG_CMD_INVALID, text);
SetSentErrorMessage(true);
return true;
```
-/
def ChatHandler._ParseCommands (env : ChatEnv) (h : ChatHandler) (text : Text) :
    Bool × ChatHandler :=
  let r := env.TryExecuteCommand h text
  if r.1 then (true, r.2)
  else
    let pretend : Bool :=
      match r.2.m_session with
      | some s => env.IsPlayerAccount s.security && !env.AllowPlayerCommands
      | none => false
    if pretend then (false, r.2)
    else (true, (env.PSendSysMessage_CMD_INVALID r.2 text).SetSentErrorMessage true)

/-- The member `ChatHandler::ParseCommands(std::string_view text)`: its result
and the handler it leaves; `none` when `ASSERT(!text.empty())` fails.

```
ASSERT(!text.empty());
if ((text[0] != '!') && (text[0] != '.')) return false;
if (text.length() < 2) return false;
if (text[1] == text[0]) return false;
if (text[1] == Warhead::Impl::ChatCommands::COMMAND_DELIMITER) return false;
return _ParseCommands(text.substr(1));
```
-/
def ChatHandler.ParseCommands (env : ChatEnv) (h : ChatHandler) (text : Text) :
    Option (Bool × ChatHandler) :=
  match text with
  | [] => none
  | c0 :: rest =>
    if c0 ≠ BANG ∧ c0 ≠ DOT then some (false, h)
    else if text.length < 2 then some (false, h)
    else if rest.head? = some c0 then some (false, h)
    else if rest.head? = some env.COMMAND_DELIMITER then some (false, h)
    else some (ChatHandler._ParseCommands env h rest)

/-- The member `CliHandler::ParseCommands(std::string_view str)`: its result and
the handler it leaves.

```
if (str.empty()) return false;
if (str[0] == '.' || str[0] == '!') str = str.substr(1);
return _ParseCommands(str);
```
-/
def CliHandler.ParseCommands (env : ChatEnv) (h : ChatHandler) (str : Text) :
    Bool × ChatHandler :=
  match str with
  | [] => (false, h)
  | c0 :: rest =>
    if c0 = DOT ∨ c0 = BANG then ChatHandler._ParseCommands env h rest
    else ChatHandler._ParseCommands env h (c0 :: rest)

/-- The C library call `strtok(str, delim)` with a non-null `str`: leading
delimiter characters are skipped; if nothing is left the result is `NULL`
(`none`); otherwise the token runs up to the next delimiter character or the
end of the string. The second component is the text `strtok` keeps for the
next call (what follows the delimiter that ended the token). -/
def strtok (str : Text) (delim : List Char) : Option Text × Text :=
  let s := str.dropWhile (fun c => decide (c ∈ delim))
  match s with
  | [] => (none, [])
  | _ :: _ =>
    (some (s.takeWhile (fun c => !decide (c ∈ delim))),
      (s.dropWhile (fun c => !decide (c ∈ delim))).tail)

/-- The member `ChatHandler::extractQuotedArg(char* args)`: the C string the
result points to, `none` for `nullptr`.

```
if (!*args) return nullptr;
if (*args == '"') return strtok(args + 1, "\"");
else {
    while (*args == ' ') { args += 1; continue; }
    if (!*args) return nullptr;
    if (*args == '"') {
        if (*(args + 1) == '"') { strtok(args, " "); static char arg[1]; arg[0] = '\0'; return arg; }
        else return strtok(args + 1, "\"");
    }
    else return nullptr;
}
```
-/
def extractQuotedArg (args : Text) : Option Text :=
  match args with
  | [] => none
  | c :: rest =>
    if c = DQUOTE then (strtok rest [DQUOTE]).1
    else
      match args.dropWhile (fun a => decide (a = SPACE)) with
      | [] => none
      | c1 :: rest1 =>
        if c1 = DQUOTE then
          if rest1.head? = some DQUOTE then some []
          else (strtok rest1 [DQUOTE]).1
        else none

/-! ## Object placement and instance admission

`Map::AddToMap`, `Map::RemoveFromMap` and `InstanceMap::CannotEnter` are only
declared in `Map.h`; their bodies are not among the sources at hand. The
definitions of this section follow the specification. -/

/-- Modelled from the spec: what `InstanceMap::CannotEnter` reads (the class
members behind it are missing): the number of players in the map and the
configured cap. -/
structure InstanceMap where
  playerCount : Nat
  maxPlayers : Nat
deriving DecidableEq, Repr

/-- Modelled from the spec: `InstanceMap::GetMaxPlayers()`, whose body is
missing: "the configured cap". -/
def InstanceMap.GetMaxPlayers (im : InstanceMap) : Nat := im.maxPlayers

/-- Modelled from the spec: `InstanceMap::CannotEnter(player, loginCheck)`,
whose body is missing: "a pure predicate over (player, loginCheck)" that
"returns `CANNOT_ENTER_MAX_PLAYERS` once player count reaches the configured
cap and `CAN_ENTER` one below it", and otherwise "one terminal reason from a
fixed enumeration". The other admission rules are the parameter `otherRules`:
the reason of the first of them that fails, if any. -/
def InstanceMap.CannotEnter (otherRules : PlayerPtr → Bool → Option MapEnterState)
    (im : InstanceMap) (player : PlayerPtr) (loginCheck : Bool) : MapEnterState :=
  if im.GetMaxPlayers ≤ im.playerCount then MapEnterState.CANNOT_ENTER_MAX_PLAYERS
  else
    match otherRules player loginCheck with
    | some reason => reason
    | none => MapEnterState.CAN_ENTER

/-! ## Chat handler: creature lookup and security check -/

/-- A `Creature*`, by its address; `0` is `nullptr`. -/
abbrev CreaturePtr := Nat

/-- The container `Map::CreatureBySpawnIdContainer`, a
`std::unordered_multimap<ObjectGuid::LowType, Creature*>`: the stored pairs in
iteration order. -/
abbrev CreatureBySpawnIdContainer := List (LowType × CreaturePtr)

/-- The range `equal_range(key)` of the multimap: the stored pairs whose key is
`key`, in iteration order. -/
def CreatureBySpawnIdContainer.equal_range (store : CreatureBySpawnIdContainer)
    (key : LowType) : List (LowType × CreaturePtr) :=
  store.filter (fun p => decide (p.1 = key))

/-- The collaborators of `GetCreatureFromPlayerMapByDbGuid` that are defined
outside the sources at hand. -/
structure CreatureLookupEnv where
  /-- The store reached by
  `m_session->GetPlayer()->GetMap()->GetCreatureBySpawnIdStore()`. -/
  GetCreatureBySpawnIdStore : WorldSession → CreatureBySpawnIdContainer
  /-- The call `creature->IsAlive()` on a non-null pointer. -/
  IsAlive : CreaturePtr → Bool

/-- The loop of `GetCreatureFromPlayerMapByDbGuid` over the range still to
visit, with the current value of the local `creature`.

```
for (auto it = bounds.first; it != bounds.second; ++it) {
    creature = it->second;
    if (it->second->IsAlive()) break;
}
```
-/
def selectCreature (IsAlive : CreaturePtr → Bool) :
    List (LowType × CreaturePtr) → CreaturePtr → CreaturePtr
  | [], creature => creature
  | it :: rest, _ => if IsAlive it.2 then it.2 else selectCreature IsAlive rest it.2

/-- The member `ChatHandler::GetCreatureFromPlayerMapByDbGuid(ObjectGuid::LowType lowguid)`.

```
if (!m_session) return nullptr;
// Select the first alive creature or a dead one if not found
Creature* creature = nullptr;
auto bounds = m_session->GetPlayer()->GetMap()->GetCreatureBySpawnIdStore().equal_range(lowguid);
for (...) { ... }
return creature;
```
-/
def ChatHandler.GetCreatureFromPlayerMapByDbGuid (env : CreatureLookupEnv) (h : ChatHandler)
    (lowguid : LowType) : CreaturePtr :=
  match h.m_session with
  | none => nullptr
  | some s =>
    selectCreature env.IsAlive
      (CreatureBySpawnIdContainer.equal_range (env.GetCreatureBySpawnIdStore s) lowguid) nullptr

/-- The collaborators of `HasLowerSecurityAccount` that are defined outside the
sources at hand. -/
structure SecurityEnv where
  /-- The predicate `AccountMgr::IsPlayerAccount(security)`. -/
  IsPlayerAccount : Nat → Bool
  /-- The setting `CONF_GET_BOOL("GM.LowerSecurity")`. -/
  GM_LowerSecurity : Bool
  /-- The lookup `AccountMgr::GetSecurity(target_account, realm.Id.Realm)`. -/
  GetSecurity : Nat → Nat
  /-- The call `m_session->GetWarheadString(entry)`. -/
  GetWarheadString : WorldSession → Nat → Text
  /-- The constant `LANG_YOURS_SECURITY_IS_LOW`. -/
  LANG_YOURS_SECURITY_IS_LOW : Nat
  /-- The tokenizer `Warhead::Tokenize(text, sep, keepEmpty)`. -/
  Tokenize : Text → Char → Bool → List Text

/-- The member `ChatHandler::SendSysMessage(uint32 entry)`,
`SendSysMessage(GetWarheadString(entry))`, where `GetWarheadString` reads
`m_session->GetWarheadString(entry)`; `none` when `m_session` is `nullptr`. -/
def ChatHandler.SendSysMessageEntry (env : SecurityEnv) (h : ChatHandler) (entry : Nat) :
    Option ChatHandler :=
  match h.m_session with
  | none => none
  | some s =>
    (ChatHandler.SendSysMessage env.Tokenize h (env.GetWarheadString s entry) false).map
      (fun r => r.handler)

/-- The member
`ChatHandler::HasLowerSecurityAccount(WorldSession* target, uint32 target_account, bool strong)`:
its result and the handler it leaves; `none` when the call runs into undefined
behaviour.

```
uint32 target_sec;
if (!m_session) return false;
if (!AccountMgr::IsPlayerAccount(m_session->GetSecurity()) && !strong
        && !CONF_GET_BOOL("GM.LowerSecurity"))
    return false;
if (target) target_sec = target->GetSecurity();
else if (target_account) target_sec = AccountMgr::GetSecurity(target_account, realm.Id.Realm);
else return true;
AccountTypes target_ac_sec = AccountTypes(target_sec);
if (m_session->GetSecurity() < target_ac_sec
        || (strong && m_session->GetSecurity() <= target_ac_sec)) {
    SendSysMessage(LANG_YOURS_SECURITY_IS_LOW);
    SetSentErrorMessage(true);
    return true;
}
return false;
```
-/
def ChatHandler.HasLowerSecurityAccount (env : SecurityEnv) (h : ChatHandler)
    (target : Option WorldSession) (target_account : Nat) (strong : Bool) :
    Option (Bool × ChatHandler) :=
  match h.m_session with
  | none => some (false, h)
  | some s =>
    if !env.IsPlayerAccount s.security && !strong && !env.GM_LowerSecurity then some (false, h)
    else
      let target_sec : Option Nat :=
        match target with
        | some t => some t.security
        | none => if target_account ≠ 0 then some (env.GetSecurity target_account) else none
      match target_sec with
      | none => some (true, h)
      | some target_ac_sec =>
        if s.security < target_ac_sec ∨ (strong = true ∧ s.security ≤ target_ac_sec) then
          (h.SendSysMessageEntry env env.LANG_YOURS_SECURITY_IS_LOW).map
            (fun h1 => (true, h1.SetSentErrorMessage true))
        else some (false, h)

/-! # Properties -/

/-! ## The unload timer -/

theorem uint32_sub_of_le {a b : Nat} (ha : a < UINT32_SIZE) (hb : b ≤ a) :
    uint32_sub a b = a - b := by
  unfold uint32_sub
  have hb' : b % UINT32_SIZE = b := Nat.mod_eq_of_lt (lt_of_le_of_lt hb ha)
  rw [hb']
  have h : a + UINT32_SIZE - b = (a - b) + UINT32_SIZE := by omega
  rw [h, Nat.add_mod_right]
  exact Nat.mod_eq_of_lt (lt_of_le_of_lt (Nat.sub_le a b) ha)

/-- C1. `Map::CanUnload(diff)` returns true exactly when the stored timer is
non-zero and at most `diff`; a call that returns true leaves the map (the
timer included) as it was, and with a timer of `0` the call returns false and
the timer is still `0`. -/
theorem CanUnload_iff (m : Map) (diff : Nat) :
    ((m.CanUnload diff).1 = true ↔ m._unloadTimer ≠ 0 ∧ m._unloadTimer ≤ diff) ∧
    ((m.CanUnload diff).1 = true → (m.CanUnload diff).2 = m) ∧
    (m._unloadTimer = 0 →
      (m.CanUnload diff).1 = false ∧ (m.CanUnload diff).2._unloadTimer = 0) := by
  unfold Map.CanUnload
  by_cases h0 : m._unloadTimer = 0
  · simp [h0]
  · by_cases hle : m._unloadTimer ≤ diff
    · simp [h0, hle]
    · simp [h0, hle]

theorem CanUnload_of_lt {m : Map} {d : Nat} (ht : m._unloadTimer < UINT32_SIZE)
    (hd : d < m._unloadTimer) :
    (m.CanUnload d).1 = false ∧ (m.CanUnload d).2._unloadTimer = m._unloadTimer - d := by
  unfold Map.CanUnload
  have h0 : m._unloadTimer ≠ 0 := by omega
  have hle : ¬ m._unloadTimer ≤ d := by omega
  simp [h0, hle, uint32_sub_of_le ht (le_of_lt hd)]

theorem CanUnload_of_ge {m : Map} {d : Nat} (h0 : 0 < m._unloadTimer)
    (hd : m._unloadTimer ≤ d) : (m.CanUnload d).1 = true := by
  unfold Map.CanUnload
  have h0' : m._unloadTimer ≠ 0 := by omega
  simp [h0', hd]

theorem CanUnload_state_of_true {m : Map} {d : Nat} (h : (m.CanUnload d).1 = true) :
    (m.CanUnload d).2 = m := by
  unfold Map.CanUnload at h ⊢
  by_cases h0 : m._unloadTimer = 0
  · simp [h0]
  · by_cases hle : m._unloadTimer ≤ d
    · simp [h0, hle]
    · simp [h0, hle] at h

theorem CanUnloadTrace_length (m : Map) (ds : List Nat) :
    (m.CanUnloadTrace ds).length = ds.length := by
  induction ds generalizing m with
  | nil => rfl
  | cons d ds ih => simp [Map.CanUnloadTrace, ih]

/-- While the ticks seen so far add up to less than the timer, the call
returns false and leaves the timer minus their sum. -/
theorem CanUnloadTrace_before (ds : List Nat) :
    ∀ (m : Map) (j : Nat), m._unloadTimer < UINT32_SIZE → j < ds.length →
      (ds.take (j + 1)).sum < m._unloadTimer →
      (m.CanUnloadTrace ds)[j]? = some (false, m._unloadTimer - (ds.take (j + 1)).sum) := by
  induction ds with
  | nil => intro m j _ hj; simp at hj
  | cons d ds ih =>
    intro m j ht hj hsum
    simp only [List.take_succ_cons, List.sum_cons] at hsum
    have hd : d < m._unloadTimer := by omega
    obtain ⟨hr, htm⟩ := CanUnload_of_lt ht hd
    cases j with
    | zero =>
      simp [Map.CanUnloadTrace, hr, htm]
    | succ j =>
      have hj' : j < ds.length := by simpa using hj
      have ht' : (m.CanUnload d).2._unloadTimer < UINT32_SIZE := by rw [htm]; omega
      have hsum' : (ds.take (j + 1)).sum < (m.CanUnload d).2._unloadTimer := by
        rw [htm]; omega
      have := ih (m.CanUnload d).2 j ht' hj' hsum'
      simp only [Map.CanUnloadTrace, List.getElem?_cons_succ, this, htm,
        List.take_succ_cons, List.sum_cons]
      congr 2
      omega

/-- The call that makes the ticks reach the timer returns true and leaves the
timer it found. -/
theorem CanUnloadTrace_reach (ds : List Nat) :
    ∀ (m : Map) (k : Nat), 0 < m._unloadTimer → m._unloadTimer < UINT32_SIZE → k < ds.length →
      (ds.take k).sum < m._unloadTimer → m._unloadTimer ≤ (ds.take (k + 1)).sum →
      (m.CanUnloadTrace ds)[k]? = some (true, m._unloadTimer - (ds.take k).sum) := by
  induction ds with
  | nil => intro m k _ _ hk; simp at hk
  | cons d ds ih =>
    intro m k h0 ht hk hlt hge
    cases k with
    | zero =>
      simp only [List.take_succ_cons, List.take_zero, List.sum_cons, List.sum_nil,
        Nat.add_zero] at hge
      have hr := CanUnload_of_ge h0 hge
      have hm := CanUnload_state_of_true hr
      simp [Map.CanUnloadTrace, hr, hm]
    | succ k =>
      simp only [List.take_succ_cons, List.sum_cons] at hlt hge
      have hd : d < m._unloadTimer := by omega
      obtain ⟨_, htm⟩ := CanUnload_of_lt ht hd
      have hk' : k < ds.length := by simpa using hk
      have := ih (m.CanUnload d).2 k (by rw [htm]; omega) (by rw [htm]; omega) hk'
        (by rw [htm]; omega) (by rw [htm]; omega)
      simp only [Map.CanUnloadTrace, List.getElem?_cons_succ, this, htm,
        List.take_succ_cons, List.sum_cons]
      congr 2
      omega

/-- C2. Successive `Map::CanUnload` calls from a timer `t0` with `0 < t0 < 2 ^ 32`.
Every call `j` at which the ticks so far still add up to less than `t0`
returns false and leaves the timer `t0 - (d1 + ... + dj)`, a positive number
(the subtraction is the one of the naturals: nothing wrapped). If `k` is the
least index at which the ticks add up to `t0` or more, call `k` returns true,
finds and leaves the timer `t0 - (d1 + ... + d(k-1))`, and every call `j`
before it returned false and left the positive timer `t0 - (d1 + ... + dj)`.
Calls are counted from `0` in the trace. -/
theorem CanUnload_first_true (m : Map) (ds : List Nat)
    (h0 : 0 < m._unloadTimer) (ht : m._unloadTimer < 2 ^ 32) :
    (∀ j, j < ds.length → (ds.take (j + 1)).sum < m._unloadTimer →
      (m.CanUnloadTrace ds)[j]? = some (false, m._unloadTimer - (ds.take (j + 1)).sum) ∧
      0 < m._unloadTimer - (ds.take (j + 1)).sum) ∧
    (∀ k, k < ds.length → m._unloadTimer ≤ (ds.take (k + 1)).sum →
      (∀ i, i < k → (ds.take (i + 1)).sum < m._unloadTimer) →
      (m.CanUnloadTrace ds)[k]? = some (true, m._unloadTimer - (ds.take k).sum) ∧
      ∀ j, j < k →
        (m.CanUnloadTrace ds)[j]? = some (false, m._unloadTimer - (ds.take (j + 1)).sum) ∧
        0 < m._unloadTimer - (ds.take (j + 1)).sum) := by
  constructor
  · intro j hj hsum
    exact ⟨CanUnloadTrace_before ds m j ht hj hsum, Nat.sub_pos_of_lt hsum⟩
  · intro k hk hreach hleast
    have hlt : (ds.take k).sum < m._unloadTimer := by
      cases k with
      | zero => simpa using h0
      | succ k => exact hleast k (Nat.lt_succ_self k)
    refine ⟨CanUnloadTrace_reach ds m k h0 ht hk hlt hreach, ?_⟩
    intro j hjk
    exact ⟨CanUnloadTrace_before ds m j ht (lt_trans hjk hk) (hleast j hjk),
      Nat.sub_pos_of_lt (hleast j hjk)⟩

/-- Witness for C2: timer 5 and ticks 2, 2, 2, 9: the third call is the first
to return true. -/
theorem CanUnload_first_true_witness :
    ((({ _unloadTimer := 5 } : Map).CanUnloadTrace [2, 2, 2, 9])[1]? = some (false, 1)) ∧
    ((({ _unloadTimer := 5 } : Map).CanUnloadTrace [2, 2, 2, 9])[2]? = some (true, 1)) := by
  have h := CanUnload_first_true ({ _unloadTimer := 5 } : Map) [2, 2, 2, 9]
    (by decide) (by norm_num)
  refine ⟨?_, ?_⟩
  · simpa using (h.1 1 (by decide) (by decide)).1
  · have h2 := (h.2 2 (by decide) (by decide) (by
      intro i hi
      interval_cases i <;> decide)).1
    simpa using h2

/-! ## Ray against box: origin inside -/

namespace MyCollisionDetection

theorem candidateStep_inside (origin dir MinB MaxB : Vector3) (s : Candidates) (i : Nat)
    (hlo : MinB.get i ≤ origin.get i) (hhi : origin.get i ≤ MaxB.get i) :
    candidateStep origin dir MinB MaxB s i = s := by
  unfold candidateStep
  rw [if_neg (not_lt.mpr hlo), if_neg (not_lt.mpr hhi)]

theorem findCandidatePlanes_inside (origin dir MinB MaxB location : Vector3)
    (h : ∀ i, i < 3 → MinB.get i ≤ origin.get i ∧ origin.get i ≤ MaxB.get i) :
    findCandidatePlanes origin dir MinB MaxB location =
      { location := location, Inside := true, MaxT := ⟨-1, -1, -1⟩ } := by
  unfold findCandidatePlanes
  simp only [List.foldl_cons, List.foldl_nil]
  rw [candidateStep_inside _ _ _ _ _ 0 (h 0 (by decide)).1 (h 0 (by decide)).2,
    candidateStep_inside _ _ _ _ _ 1 (h 1 (by decide)).1 (h 1 (by decide)).2,
    candidateStep_inside _ _ _ _ _ 2 (h 2 (by decide)).1 (h 2 (by decide)).2]

end MyCollisionDetection

/-- C3. When `low[i] ≤ origin[i] ≤ high[i]` on the three axes (boundary
included), `collisionLocationForMovingPointFixedAABox` returns true, sets
`Inside` to true and sets `location` to `origin`, whatever the direction (the
zero vector included) and whatever `location` held on entry. -/
theorem collision_origin_inside (origin dir : Vector3) (box : AABox) (location : Vector3)
    (h : ∀ i, i < 3 → box.low.get i ≤ origin.get i ∧ origin.get i ≤ box.high.get i) :
    (MyCollisionDetection.collisionLocationForMovingPointFixedAABox origin dir box location).result
        = true ∧
    (MyCollisionDetection.collisionLocationForMovingPointFixedAABox origin dir box location).Inside
        = true ∧
    (MyCollisionDetection.collisionLocationForMovingPointFixedAABox origin dir box location).location
        = origin := by
  unfold MyCollisionDetection.collisionLocationForMovingPointFixedAABox
  simp only [MyCollisionDetection.findCandidatePlanes_inside origin dir box.low box.high location h]
  simp

/-- Witness for C3: an origin on a face of the unit box, with the zero
direction. -/
theorem collision_origin_inside_witness :
    (MyCollisionDetection.collisionLocationForMovingPointFixedAABox
        ⟨0, 1 / 2, 1⟩ ⟨0, 0, 0⟩ ⟨⟨0, 0, 0⟩, ⟨1, 1, 1⟩⟩ ⟨7, 7, 7⟩).result = true ∧
    (MyCollisionDetection.collisionLocationForMovingPointFixedAABox
        ⟨0, 1 / 2, 1⟩ ⟨0, 0, 0⟩ ⟨⟨0, 0, 0⟩, ⟨1, 1, 1⟩⟩ ⟨7, 7, 7⟩).Inside = true ∧
    (MyCollisionDetection.collisionLocationForMovingPointFixedAABox
        ⟨0, 1 / 2, 1⟩ ⟨0, 0, 0⟩ ⟨⟨0, 0, 0⟩, ⟨1, 1, 1⟩⟩ ⟨7, 7, 7⟩).location = ⟨0, 1 / 2, 1⟩ :=
  collision_origin_inside ⟨0, 1 / 2, 1⟩ ⟨0, 0, 0⟩ ⟨⟨0, 0, 0⟩, ⟨1, 1, 1⟩⟩ ⟨7, 7, 7⟩ (by
    intro i hi
    interval_cases i <;> norm_num [AABox.low, AABox.high, Vector3.get])

/-! ## Table lookups -/

theorem UnorderedMap.find_of_mem {κ ν : Type} [DecidableEq κ] (m : UnorderedMap κ ν)
    (hu : UniqueKeys m) (k : κ) (v : ν) (h : (k, v) ∈ m) : m.find k = some (k, v) := by
  induction m with
  | nil => simp at h
  | cons p rest ih =>
    unfold UniqueKeys at hu
    rw [List.map_cons, List.nodup_cons] at hu
    unfold UnorderedMap.find
    rcases List.mem_cons.mp h with hp | hrest
    · subst hp
      simp
    · have hne : p.1 ≠ k := by
        intro hpk
        apply hu.1
        rw [hpk]
        exact List.mem_map_of_mem Prod.fst hrest
      rw [List.find?_cons_of_neg]
      · exact ih hu.2 hrest
      · simpa using hne

theorem UnorderedMap.find_of_not_mem {κ ν : Type} [DecidableEq κ] (m : UnorderedMap κ ν)
    (k : κ) (h : ∀ v, (k, v) ∉ m) : m.find k = none := by
  unfold UnorderedMap.find
  rw [List.find?_eq_none]
  intro p hp hpk
  have hk : p.1 = k := by simpa using hpk
  apply h p.2
  rw [← hk]
  exact hp

/-- C4. With the respawn tables satisfying the container invariant (a spawn id
is stored at most once): `Map::GetCreatureRespawnTime` returns the time stored
under the id in `_creatureRespawnTimes`, and `0` when that table has no entry
for the id; `Map::GetGORespawnTime` does the same over `_goRespawnTimes`; each
result is the same on any two maps that agree on the table it reads, and both
calls leave the map as it was. -/
theorem GetRespawnTime_lookup (m : Map) (dbGuid : LowType)
    (hc : UniqueKeys m._creatureRespawnTimes) (hg : UniqueKeys m._goRespawnTimes) :
    (∀ t, (dbGuid, t) ∈ m._creatureRespawnTimes → (m.GetCreatureRespawnTime dbGuid).1 = t) ∧
    ((∀ t, (dbGuid, t) ∉ m._creatureRespawnTimes) → (m.GetCreatureRespawnTime dbGuid).1 = 0) ∧
    (∀ t, (dbGuid, t) ∈ m._goRespawnTimes → (m.GetGORespawnTime dbGuid).1 = t) ∧
    ((∀ t, (dbGuid, t) ∉ m._goRespawnTimes) → (m.GetGORespawnTime dbGuid).1 = 0) ∧
    (∀ m' : Map, m'._creatureRespawnTimes = m._creatureRespawnTimes →
      (m'.GetCreatureRespawnTime dbGuid).1 = (m.GetCreatureRespawnTime dbGuid).1) ∧
    (∀ m' : Map, m'._goRespawnTimes = m._goRespawnTimes →
      (m'.GetGORespawnTime dbGuid).1 = (m.GetGORespawnTime dbGuid).1) ∧
    (m.GetCreatureRespawnTime dbGuid).2 = m ∧
    (m.GetGORespawnTime dbGuid).2 = m := by
  refine ⟨?_, ?_, ?_, ?_, ?_, ?_, ?_, ?_⟩
  · intro t h
    simp [Map.GetCreatureRespawnTime, UnorderedMap.find_of_mem _ hc dbGuid t h]
  · intro h
    simp [Map.GetCreatureRespawnTime, UnorderedMap.find_of_not_mem _ dbGuid h]
  · intro t h
    simp [Map.GetGORespawnTime, UnorderedMap.find_of_mem _ hg dbGuid t h]
  · intro h
    simp [Map.GetGORespawnTime, UnorderedMap.find_of_not_mem _ dbGuid h]
  · intro m' h
    simp only [Map.GetCreatureRespawnTime, h]
    cases UnorderedMap.find m._creatureRespawnTimes dbGuid <;> rfl
  · intro m' h
    simp only [Map.GetGORespawnTime, h]
    cases UnorderedMap.find m._goRespawnTimes dbGuid <;> rfl
  · unfold Map.GetCreatureRespawnTime
    cases UnorderedMap.find m._creatureRespawnTimes dbGuid <;> rfl
  · unfold Map.GetGORespawnTime
    cases UnorderedMap.find m._goRespawnTimes dbGuid <;> rfl

/-- Witness for C4: spawn id 7 has a creature respawn time and no game-object
respawn time. -/
theorem GetRespawnTime_lookup_witness :
    (({ _creatureRespawnTimes := [(3, 100), (7, 250)], _goRespawnTimes := [(3, 40)] } : Map).GetCreatureRespawnTime 7).1 = 250 ∧
    (({ _creatureRespawnTimes := [(3, 100), (7, 250)], _goRespawnTimes := [(3, 40)] } : Map).GetGORespawnTime 7).1 = 0 := by
  have h := GetRespawnTime_lookup
    ({ _creatureRespawnTimes := [(3, 100), (7, 250)], _goRespawnTimes := [(3, 40)] } : Map) 7
    (by decide) (by decide)
  exact ⟨h.1 250 (by decide), h.2.2.2.1 (by simp)⟩

/-- C5. With the corpse indices satisfying the container invariant (a key is
stored at most once): `Map::GetCorpseByPlayer` returns the corpse stored
under the owner in `_corpsesByPlayer`, and `nullptr` when that index has no
entry for the owner; `Map::GetCorpsesInCell` returns a pointer to the set
stored under the cell id in `_corpsesByCell`, and `nullptr`, which is not a
pointer to an empty set, when that index has no entry for the cell id; both
calls leave the map as it was. -/
theorem GetCorpse_lookup (m : Map) (ownerGuid : ObjectGuid) (cellId : Nat)
    (hp : UniqueKeys m._corpsesByPlayer) (hc : UniqueKeys m._corpsesByCell) :
    (∀ c, (ownerGuid, c) ∈ m._corpsesByPlayer → (m.GetCorpseByPlayer ownerGuid).1 = c) ∧
    ((∀ c, (ownerGuid, c) ∉ m._corpsesByPlayer) →
      (m.GetCorpseByPlayer ownerGuid).1 = nullptr) ∧
    (∀ cs, (cellId, cs) ∈ m._corpsesByCell → (m.GetCorpsesInCell cellId).1 = some cs) ∧
    ((∀ cs, (cellId, cs) ∉ m._corpsesByCell) →
      (m.GetCorpsesInCell cellId).1 = none ∧ (m.GetCorpsesInCell cellId).1 ≠ some []) ∧
    (m.GetCorpseByPlayer ownerGuid).2 = m ∧
    (m.GetCorpsesInCell cellId).2 = m := by
  refine ⟨?_, ?_, ?_, ?_, ?_, ?_⟩
  · intro c h
    simp [Map.GetCorpseByPlayer, UnorderedMap.find_of_mem _ hp ownerGuid c h]
  · intro h
    simp [Map.GetCorpseByPlayer, UnorderedMap.find_of_not_mem _ ownerGuid h]
  · intro cs h
    simp [Map.GetCorpsesInCell, UnorderedMap.find_of_mem _ hc cellId cs h]
  · intro h
    simp [Map.GetCorpsesInCell, UnorderedMap.find_of_not_mem _ cellId h]
  · unfold Map.GetCorpseByPlayer
    cases UnorderedMap.find m._corpsesByPlayer ownerGuid <;> rfl
  · unfold Map.GetCorpsesInCell
    cases UnorderedMap.find m._corpsesByCell cellId <;> rfl

/-- Witness for C5: owner 11 has the corpse at address 4096, cell 5 holds an
empty set and cell 6 has no entry. -/
theorem GetCorpse_lookup_witness :
    (({ _corpsesByPlayer := [(11, 4096)], _corpsesByCell := [(5, []), (9, [4096])] } : Map).GetCorpseByPlayer 11).1 = 4096 ∧
    (({ _corpsesByPlayer := [(11, 4096)], _corpsesByCell := [(5, []), (9, [4096])] } : Map).GetCorpsesInCell 6).1 = none := by
  have h := GetCorpse_lookup
    ({ _corpsesByPlayer := [(11, 4096)], _corpsesByCell := [(5, []), (9, [4096])] } : Map) 11 6
    (by decide) (by decide)
  exact ⟨h.1 4096 (by decide), (h.2.2.2.1 (by simp)).1⟩

/-! ## Admission -/

/-- C6. The base `Map::CannotEnter` returns `CAN_ENTER` for every player
pointer (`nullptr` included) and both values of `loginCheck`, and leaves the
map as it was. -/
theorem CannotEnter_base (m : Map) (player : PlayerPtr) (loginCheck : Bool) :
    (m.CannotEnter player loginCheck).1 = MapEnterState.CAN_ENTER ∧
    (m.CannotEnter player loginCheck).2 = m := by
  exact ⟨rfl, rfl⟩

/-- C7, as the specification states it, fails: `CANNOT_ENTER_UNINSTANCED_DUNGEON`
is a value of `MapEnterState` that is neither `CAN_ENTER` nor one of the nine
denial reasons the specification lists. -/
theorem MapEnterState_not_covered :
    ¬ (MapEnterState.CANNOT_ENTER_UNINSTANCED_DUNGEON = MapEnterState.CAN_ENTER ∨
        MapEnterState.CANNOT_ENTER_UNINSTANCED_DUNGEON ∈ specDenialReasons) := by
  decide

/-- C7, amended. Every value of `MapEnterState` is `CAN_ENTER`, one of the
nine denial reasons the specification lists, `CANNOT_ENTER_UNINSTANCED_DUNGEON`
or `CANNOT_ENTER_UNSPECIFIED_REASON`; the last two are not among the nine, and
the twelve enumerators take the values `0` to `11` in declaration order. -/
theorem MapEnterState_cases :
    (∀ s : MapEnterState,
      s = MapEnterState.CAN_ENTER ∨ s ∈ specDenialReasons ∨
      s = MapEnterState.CANNOT_ENTER_UNINSTANCED_DUNGEON ∨
      s = MapEnterState.CANNOT_ENTER_UNSPECIFIED_REASON) ∧
    MapEnterState.CANNOT_ENTER_UNINSTANCED_DUNGEON ∉ specDenialReasons ∧
    MapEnterState.CANNOT_ENTER_UNSPECIFIED_REASON ∉ specDenialReasons ∧
    MapEnterState.CAN_ENTER ∉ specDenialReasons ∧
    specDenialReasons.Nodup ∧ specDenialReasons.length = 9 ∧
    (∀ s : MapEnterState, s.toUInt8 < 12) ∧
    (∀ s t : MapEnterState, s.toUInt8 = t.toUInt8 → s = t) := by
  refine ⟨?_, by decide, by decide, by decide, by decide, by decide, ?_, ?_⟩
  · intro s
    cases s <;> decide
  · intro s
    cases s <;> decide
  · intro s t
    cases s <;> cases t <;> decide

/-! ## Liquid status flags -/

theorem land_low_nibble (s c : Nat) (hc : 15 &&& c = c) : s &&& c = (s % 16) &&& c := by
  have h15 : s &&& 15 = s % 16 := Nat.and_pow_two_sub_one_eq_mod s 4
  rw [← h15, Nat.and_assoc, hc]

theorem intersects_low_nibble (s c : Nat) (hc : 15 &&& c = c) :
    intersects s c ↔ intersects (s % 16) c := by
  unfold intersects
  rw [land_low_nibble s c hc]

/-- C8. `LIQUID_MAP_NO_WATER` is `0`; `ABOVE_WATER`, `WATER_WALK`, `IN_WATER`
and `UNDER_WATER` are the single bits `2 ^ 0` to `2 ^ 3`, pairwise disjoint.
For every status word `s`: `s` meets `MAP_LIQUID_STATUS_SWIMMING` exactly when
it has `IN_WATER` or `UNDER_WATER`, and then it also meets
`MAP_LIQUID_STATUS_IN_CONTACT`. The words `ABOVE_WATER` and `NO_WATER` meet
neither mask. -/
theorem LiquidStatus_masks :
    LIQUID_MAP_NO_WATER = 0 ∧
    (LIQUID_MAP_ABOVE_WATER = 2 ^ 0 ∧ LIQUID_MAP_WATER_WALK = 2 ^ 1 ∧
      LIQUID_MAP_IN_WATER = 2 ^ 2 ∧ LIQUID_MAP_UNDER_WATER = 2 ^ 3) ∧
    (LIQUID_MAP_ABOVE_WATER &&& LIQUID_MAP_WATER_WALK = 0 ∧
      LIQUID_MAP_ABOVE_WATER &&& LIQUID_MAP_IN_WATER = 0 ∧
      LIQUID_MAP_ABOVE_WATER &&& LIQUID_MAP_UNDER_WATER = 0 ∧
      LIQUID_MAP_WATER_WALK &&& LIQUID_MAP_IN_WATER = 0 ∧
      LIQUID_MAP_WATER_WALK &&& LIQUID_MAP_UNDER_WATER = 0 ∧
      LIQUID_MAP_IN_WATER &&& LIQUID_MAP_UNDER_WATER = 0) ∧
    (∀ s : LiquidStatus,
      (intersects s MAP_LIQUID_STATUS_SWIMMING ↔
        intersects s LIQUID_MAP_IN_WATER ∨ intersects s LIQUID_MAP_UNDER_WATER) ∧
      (intersects s MAP_LIQUID_STATUS_SWIMMING → intersects s MAP_LIQUID_STATUS_IN_CONTACT)) ∧
    (¬ intersects LIQUID_MAP_ABOVE_WATER MAP_LIQUID_STATUS_SWIMMING ∧
      ¬ intersects LIQUID_MAP_ABOVE_WATER MAP_LIQUID_STATUS_IN_CONTACT ∧
      ¬ intersects LIQUID_MAP_NO_WATER MAP_LIQUID_STATUS_SWIMMING ∧
      ¬ intersects LIQUID_MAP_NO_WATER MAP_LIQUID_STATUS_IN_CONTACT) := by
  refine ⟨by decide, by decide, by decide, ?_, by decide⟩
  intro s
  rw [intersects_low_nibble s MAP_LIQUID_STATUS_SWIMMING (by decide),
    intersects_low_nibble s LIQUID_MAP_IN_WATER (by decide),
    intersects_low_nibble s LIQUID_MAP_UNDER_WATER (by decide),
    intersects_low_nibble s MAP_LIQUID_STATUS_IN_CONTACT (by decide)]
  have hr : s % 16 < 16 := Nat.mod_lt s (by decide)
  generalize s % 16 = r at hr
  interval_cases r <;> decide

/-! ## Default terrain status -/

/-- C9. A default-constructed `LiquidData` has `Status = LIQUID_MAP_NO_WATER`,
`Level = DepthLevel = INVALID_HEIGHT`, which is `-100000`, and
`Entry = Flags = 0`; a default-constructed `PositionFullTerrainStatus` has
`floorZ = INVALID_HEIGHT`, `areaId = 0`, `outdoors = false` and the
default-constructed `LiquidData` as `liquidInfo`. -/
theorem default_terrain_status :
    (({} : LiquidData).Status = LIQUID_MAP_NO_WATER ∧
      ({} : LiquidData).Level = INVALID_HEIGHT ∧
      ({} : LiquidData).DepthLevel = INVALID_HEIGHT ∧
      ({} : LiquidData).Entry = 0 ∧
      ({} : LiquidData).Flags = 0) ∧
    INVALID_HEIGHT = -100000 ∧
    (({} : PositionFullTerrainStatus).floorZ = INVALID_HEIGHT ∧
      ({} : PositionFullTerrainStatus).areaId = 0 ∧
      ({} : PositionFullTerrainStatus).outdoors = false ∧
      ({} : PositionFullTerrainStatus).liquidInfo = ({} : LiquidData)) := by
  exact ⟨⟨rfl, rfl, rfl, rfl, rfl⟩, rfl, rfl, rfl, rfl, rfl⟩

/-! ## Tile file header layout -/

/-- C10. `struct map_fileheader` has exactly eleven members, all `uint32`, in
the order magic, version, build and then the (offset, size) pair of the area,
height, liquid and holes sections; laid out by the standard rule it takes 44
bytes, the sum of the member sizes (no padding), with the offset member of the
`k`-th section at byte `12 + 8k` and its size member at byte `16 + 8k`. -/
theorem map_fileheader_layout :
    map_fileheader.members.length = 11 ∧
    (∀ p ∈ map_fileheader.members, p.2 = CType.uint32) ∧
    map_fileheader.members.map Prod.fst =
      [map_fileheader.Member.mapMagic, map_fileheader.Member.versionMagic,
        map_fileheader.Member.buildMagic] ++
      (List.finRange 4).flatMap
        (fun k => [map_fileheader.sectionOffset k, map_fileheader.sectionSize k]) ∧
    structSizeof map_fileheader.members = 44 ∧
    (map_fileheader.members.map (fun p => p.2.sizeof)).sum = 44 ∧
    (∀ k : Fin 4,
      structOffsetof map_fileheader.members (map_fileheader.sectionOffset k)
        = some (12 + 8 * k.val) ∧
      structOffsetof map_fileheader.members (map_fileheader.sectionSize k)
        = some (16 + 8 * k.val)) := by
  refine ⟨by decide, by decide, by decide, by decide, by decide, ?_⟩
  intro k
  fin_cases k <;> exact ⟨by decide, by decide⟩

/-! ## Removing an active object during an update pass -/

theorem StdSet.nodup_of_ordered {s : StdSet} (h : StdSet.Ordered s) : s.Nodup :=
  List.Pairwise.imp (fun hab => Nat.ne_of_lt hab) h

theorem StdSet.find_eq_some {s : StdSet} {key x : WorldObjectPtr}
    (h : StdSet.find s key = some x) : x = key ∧ key ∈ s := by
  unfold StdSet.find at h
  have hx : x = key := by simpa using List.find?_some h
  have hm := List.mem_of_find?_eq_some h
  exact ⟨hx, hx ▸ hm⟩

theorem StdSet.find_eq_none {s : StdSet} {key : WorldObjectPtr}
    (h : StdSet.find s key = none) : key ∉ s := by
  unfold StdSet.find at h
  rw [List.find?_eq_none] at h
  intro hm
  simpa using h key hm

theorem StdSet.mem_erase_iff {s : StdSet} (h : StdSet.Ordered s) (x y : WorldObjectPtr) :
    y ∈ StdSet.erase s x ↔ y ≠ x ∧ y ∈ s :=
  List.Nodup.mem_erase_iff (StdSet.nodup_of_ordered h)

/-- The increment of an iterator yields the least stored element above the
designated one, and `end()` when there is none. -/
theorem StdSet.next_spec (s : StdSet) (h : StdSet.Ordered s) (cur : WorldObjectPtr)
    (hc : cur ∈ s) :
    (∀ y, StdSet.next s cur = some y → y ∈ s ∧ cur < y ∧ ∀ z ∈ s, cur < z → y ≤ z) ∧
    (StdSet.next s cur = none → ∀ z ∈ s, z ≤ cur) := by
  induction s with
  | nil => simp at hc
  | cons a rest ih =>
    unfold StdSet.Ordered at h
    rw [List.pairwise_cons] at h
    by_cases hac : a = cur
    · subst hac
      simp only [StdSet.next, if_true]
      constructor
      · intro y hy
        have hyr : y ∈ rest := List.mem_of_mem_head? hy
        refine ⟨List.mem_cons_of_mem _ hyr, h.1 y hyr, ?_⟩
        intro z hz hlt
        rcases List.mem_cons.mp hz with hza | hzr
        · exact absurd (hza ▸ hlt) (lt_irrefl a)
        · cases rest with
          | nil => simp at hyr
          | cons b rest' =>
            have hyb : y = b := by simpa using hy.symm
            subst hyb
            rcases List.mem_cons.mp hzr with hzb | hzr'
            · exact le_of_eq hzb.symm
            · exact le_of_lt ((List.pairwise_cons.mp h.2).1 z hzr')
      · intro hn z hz
        cases rest with
        | nil => exact le_of_eq (by simpa using hz)
        | cons b rest' => simp at hn
    · have hcr : cur ∈ rest := by
        rcases List.mem_cons.mp hc with hca | hcr
        · exact absurd hca.symm hac
        · exact hcr
      have hacl : a < cur := h.1 cur hcr
      simp only [StdSet.next, if_neg hac]
      obtain ⟨ih1, ih2⟩ := ih h.2 hcr
      constructor
      · intro y hy
        obtain ⟨hyr, hlt, hleast⟩ := ih1 y hy
        refine ⟨List.mem_cons_of_mem _ hyr, hlt, ?_⟩
        intro z hz hcz
        rcases List.mem_cons.mp hz with hza | hzr
        · exact absurd (hza ▸ hcz) (lt_asymm hacl)
        · exact hleast z hzr hcz
      · intro hn z hz
        rcases List.mem_cons.mp hz with hza | hzr
        · exact hza ▸ le_of_lt hacl
        · exact ih2 hn z hzr

/-- C13. For a well-formed active set (strictly ordered) and a saved iterator
that is `end()` or designates a member: after `Map::RemoveFromActiveHelper(obj)`
the object is absent from the set, every other pointer is a member exactly
when it was one before, and the set is still ordered. While a pass is in
progress (the saved iterator designates `cur`): if `cur` is not `obj` the
iterator is unchanged; if `cur` is `obj` the iterator designates the least
member above `obj`, or is `end()` when `obj` was the greatest member; in both
cases the iterator is valid for the new set. When no pass is in progress the
iterator stays `end()`. -/
theorem RemoveFromActiveHelper_keeps_iterator (m : ActiveObjects) (obj : WorldObjectPtr)
    (hord : StdSet.Ordered m._activeNonPlayers)
    (hvalid : ∀ cur, m._activeNonPlayersIter = some cur → cur ∈ m._activeNonPlayers) :
    obj ∉ (m.RemoveFromActiveHelper obj)._activeNonPlayers ∧
    (∀ y, y ≠ obj →
      (y ∈ (m.RemoveFromActiveHelper obj)._activeNonPlayers ↔ y ∈ m._activeNonPlayers)) ∧
    StdSet.Ordered (m.RemoveFromActiveHelper obj)._activeNonPlayers ∧
    (∀ cur, m._activeNonPlayersIter = some cur →
      (cur ≠ obj → (m.RemoveFromActiveHelper obj)._activeNonPlayersIter = some cur) ∧
      (cur = obj →
        (∀ y, (m.RemoveFromActiveHelper obj)._activeNonPlayersIter = some y →
          y ∈ m._activeNonPlayers ∧ obj < y ∧ ∀ z ∈ m._activeNonPlayers, obj < z → y ≤ z) ∧
        ((m.RemoveFromActiveHelper obj)._activeNonPlayersIter = none →
          ∀ z ∈ m._activeNonPlayers, z ≤ obj)) ∧
      (∀ y, (m.RemoveFromActiveHelper obj)._activeNonPlayersIter = some y →
        y ∈ (m.RemoveFromActiveHelper obj)._activeNonPlayers)) ∧
    (m._activeNonPlayersIter = none →
      (m.RemoveFromActiveHelper obj)._activeNonPlayersIter = none) := by
  have hsub : ∀ x, StdSet.Ordered (StdSet.erase m._activeNonPlayers x) := fun x =>
    List.Pairwise.sublist (List.erase_sublist x m._activeNonPlayers) hord
  cases hit : m._activeNonPlayersIter with
  | none =>
    have hr : m.RemoveFromActiveHelper obj =
        { m with _activeNonPlayers := StdSet.erase m._activeNonPlayers obj } := by
      simp [ActiveObjects.RemoveFromActiveHelper, hit]
    rw [hr]
    refine ⟨?_, ?_, hsub obj, ?_, ?_⟩
    · intro h
      exact ((StdSet.mem_erase_iff hord obj obj).mp h).1 rfl
    · intro y hy
      simp [StdSet.mem_erase_iff hord, hy]
    · intro cur hcur
      simp at hcur
    · intro _
      exact hit
  | some cur =>
    have hcm : cur ∈ m._activeNonPlayers := hvalid cur hit
    cases hf : StdSet.find m._activeNonPlayers obj with
    | none =>
      have hr : m.RemoveFromActiveHelper obj = m := by
        simp [ActiveObjects.RemoveFromActiveHelper, hit, hf]
      have hno : obj ∉ m._activeNonPlayers := StdSet.find_eq_none hf
      rw [hr]
      refine ⟨hno, fun y _ => Iff.rfl, hord, ?_, ?_⟩
      · intro cur' hcur'
        have hcc : cur = cur' := by simpa using hcur'
        subst hcc
        refine ⟨fun _ => hit, ?_, ?_⟩
        · intro hco
          exact absurd (hco ▸ hcm) hno
        · intro y hy
          exact hvalid y hy
      · intro h
        simp at h
    | some itr =>
      obtain ⟨hio, hom⟩ := StdSet.find_eq_some hf
      subst hio
      have hr : m.RemoveFromActiveHelper itr =
          { _activeNonPlayers := StdSet.erase m._activeNonPlayers itr
            _activeNonPlayersIter :=
              if itr = cur then StdSet.next m._activeNonPlayers cur else some cur } := by
        simp [ActiveObjects.RemoveFromActiveHelper, hit, hf]
      rw [hr]
      obtain ⟨hn1, hn2⟩ := StdSet.next_spec m._activeNonPlayers hord cur hcm
      refine ⟨?_, ?_, hsub itr, ?_, ?_⟩
      · intro h
        exact ((StdSet.mem_erase_iff hord itr itr).mp h).1 rfl
      · intro y hy
        simp [StdSet.mem_erase_iff hord, hy]
      · intro cur' hcur'
        have hcc : cur = cur' := by simpa using hcur'
        subst hcc
        refine ⟨?_, ?_, ?_⟩
        · intro hne
          simp [Ne.symm hne]
        · intro heq
          subst heq
          simp only [if_true]
          exact ⟨hn1, hn2⟩
        · intro y hy
          by_cases hic : itr = cur
          · subst hic
            simp only [if_true] at hy
            obtain ⟨hym, hlt, _⟩ := hn1 y hy
            exact (StdSet.mem_erase_iff hord itr y).mpr ⟨Nat.ne_of_gt hlt, hym⟩
          · simp only [if_neg hic] at hy
            have hyc : cur = y := by simpa using hy
            subst hyc
            exact (StdSet.mem_erase_iff hord itr cur).mpr ⟨Ne.symm hic, hcm⟩
      · intro h
        simp at h

/-- Witness for C13: the pass stands at 20 in the set 10, 20, 30 and 20 is
removed: the iterator moves on to 30. -/
theorem RemoveFromActiveHelper_keeps_iterator_witness :
    (({ _activeNonPlayers := [10, 20, 30], _activeNonPlayersIter := some 20 } :
        ActiveObjects).RemoveFromActiveHelper 20) =
      { _activeNonPlayers := [10, 30], _activeNonPlayersIter := some 30 } ∧
    (20 : WorldObjectPtr) ∉
      (({ _activeNonPlayers := [10, 20, 30], _activeNonPlayersIter := some 20 } :
        ActiveObjects).RemoveFromActiveHelper 20)._activeNonPlayers :=
  ⟨by decide,
    (RemoveFromActiveHelper_keeps_iterator
      { _activeNonPlayers := [10, 20, 30], _activeNonPlayersIter := some 20 } 20
      (by decide) (by intro cur h; cases h; decide)).1⟩

/-! ## Visiting a cell -/

/-- C14. `Map::Visit(cell, visitor)`: when `cell.NoCreate()` is set and the grid
(`GridX`, `GridY`) is not loaded, it makes no call (neither `EnsureGridLoaded`
nor the visitor) and leaves grids and visitor as they were; in every other
case it calls `EnsureGridLoaded(cell)` and then runs the visitor on cell
(`CellX`, `CellY`) of grid (`GridX`, `GridY`), and nothing else. -/
theorem Visit_lazy {σ V : Type} (ops : GridOps σ V) (grids : σ) (cell : Cell) (visitor : V) :
    (cell.NoCreate = true ∧ ops.IsGridLoaded grids cell.GridX cell.GridY = false →
      (Map.Visit ops grids cell visitor).calls = [] ∧
      (Map.Visit ops grids cell visitor).grids = grids ∧
      (Map.Visit ops grids cell visitor).visitor = visitor) ∧
    (cell.NoCreate = false ∨ ops.IsGridLoaded grids cell.GridX cell.GridY = true →
      (Map.Visit ops grids cell visitor).calls =
        [VisitCall.EnsureGridLoaded cell,
          VisitCall.VisitGrid cell.GridX cell.GridY cell.CellX cell.CellY] ∧
      ((Map.Visit ops grids cell visitor).grids, (Map.Visit ops grids cell visitor).visitor) =
        ops.VisitGrid (ops.EnsureGridLoaded grids cell) cell.GridX cell.GridY
          cell.CellX cell.CellY visitor) := by
  constructor
  · rintro ⟨hn, hl⟩
    simp [Map.Visit, hn, hl]
  · intro h
    rcases h with hn | hl
    · simp [Map.Visit, hn]
    · simp [Map.Visit, hl]

/-! ## Ray against box: origin outside -/

theorem Vector3.get_set_eq (v : Vector3) (i : Nat) (a : ℚ) : (v.set i a).get i = a := by
  match i with
  | 0 => rfl
  | 1 => rfl
  | (_ + 2) => rfl

theorem Vector3.get_set_ne (v : Vector3) {i j : Nat} (hi : i < 3) (hj : j < 3) (hij : j ≠ i)
    (a : ℚ) : (v.set i a).get j = v.get j := by
  interval_cases i <;> interval_cases j <;> first | rfl | exact absurd rfl hij

theorem Vector3.ext_get {v w : Vector3} (h : ∀ i, i < 3 → v.get i = w.get i) : v = w := by
  cases v
  cases w
  have h0 := h 0 (by decide)
  have h1 := h 1 (by decide)
  have h2 := h 2 (by decide)
  simp only [Vector3.get] at h0 h1 h2
  simp [h0, h1, h2]

namespace MyCollisionDetection

theorem candidateStep_MaxT_ne (origin dir MinB MaxB : Vector3) (s : Candidates) {i j : Nat}
    (hi : i < 3) (hj : j < 3) (hij : j ≠ i) :
    (candidateStep origin dir MinB MaxB s i).MaxT.get j = s.MaxT.get j := by
  unfold candidateStep
  split_ifs <;> simp [Vector3.get_set_ne _ hi hj hij]

theorem candidateStep_MaxT_eq (origin dir MinB MaxB : Vector3) (s : Candidates) (i : Nat)
    (hs : s.MaxT.get i = -1) :
    (candidateStep origin dir MinB MaxB s i).MaxT.get i =
      axisMaxT (origin.get i) (dir.get i) (MinB.get i) (MaxB.get i) := by
  unfold candidateStep axisMaxT
  split_ifs <;> simp_all [Vector3.get_set_eq]

theorem candidateStep_location_ne (origin dir MinB MaxB : Vector3) (s : Candidates) {i j : Nat}
    (hi : i < 3) (hj : j < 3) (hij : j ≠ i) :
    (candidateStep origin dir MinB MaxB s i).location.get j = s.location.get j := by
  unfold candidateStep
  split_ifs <;> simp [Vector3.get_set_ne _ hi hj hij]

theorem candidateStep_location_eq (origin dir MinB MaxB : Vector3) (s : Candidates) (i : Nat) :
    (candidateStep origin dir MinB MaxB s i).location.get i =
      axisPlane (origin.get i) (MinB.get i) (MaxB.get i) (s.location.get i) := by
  unfold candidateStep axisPlane
  split_ifs <;> simp [Vector3.get_set_eq]

theorem candidateStep_Inside (origin dir MinB MaxB : Vector3) (s : Candidates) (i : Nat) :
    (candidateStep origin dir MinB MaxB s i).Inside = true ↔
      s.Inside = true ∧ MinB.get i ≤ origin.get i ∧ origin.get i ≤ MaxB.get i := by
  unfold candidateStep
  split_ifs with h1 h2
  · simp [not_le.mpr h1]
  · simp [not_le.mpr h2]
  · simp [not_lt.mp h1, not_lt.mp h2]

theorem findCandidatePlanes_MaxT (origin dir MinB MaxB location : Vector3) (i : Nat)
    (hi : i < 3) :
    (findCandidatePlanes origin dir MinB MaxB location).MaxT.get i =
      axisMaxT (origin.get i) (dir.get i) (MinB.get i) (MaxB.get i) := by
  simp only [findCandidatePlanes, List.foldl_cons, List.foldl_nil]
  interval_cases i
  · rw [candidateStep_MaxT_ne _ _ _ _ _ (by decide) (by decide) (by decide),
      candidateStep_MaxT_ne _ _ _ _ _ (by decide) (by decide) (by decide),
      candidateStep_MaxT_eq]
    rfl
  · rw [candidateStep_MaxT_ne _ _ _ _ _ (by decide) (by decide) (by decide),
      candidateStep_MaxT_eq]
    rw [candidateStep_MaxT_ne _ _ _ _ _ (by decide) (by decide) (by decide)]
    rfl
  · rw [candidateStep_MaxT_eq]
    rw [candidateStep_MaxT_ne _ _ _ _ _ (by decide) (by decide) (by decide),
      candidateStep_MaxT_ne _ _ _ _ _ (by decide) (by decide) (by decide)]
    rfl

theorem findCandidatePlanes_location (origin dir MinB MaxB location : Vector3) (i : Nat)
    (hi : i < 3) :
    (findCandidatePlanes origin dir MinB MaxB location).location.get i =
      axisPlane (origin.get i) (MinB.get i) (MaxB.get i) (location.get i) := by
  simp only [findCandidatePlanes, List.foldl_cons, List.foldl_nil]
  interval_cases i
  · rw [candidateStep_location_ne _ _ _ _ _ (by decide) (by decide) (by decide),
      candidateStep_location_ne _ _ _ _ _ (by decide) (by decide) (by decide),
      candidateStep_location_eq]
  · rw [candidateStep_location_ne _ _ _ _ _ (by decide) (by decide) (by decide),
      candidateStep_location_eq,
      candidateStep_location_ne _ _ _ _ _ (by decide) (by decide) (by decide)]
  · rw [candidateStep_location_eq,
      candidateStep_location_ne _ _ _ _ _ (by decide) (by decide) (by decide),
      candidateStep_location_ne _ _ _ _ _ (by decide) (by decide) (by decide)]

theorem findCandidatePlanes_Inside (origin dir MinB MaxB location : Vector3) :
    (findCandidatePlanes origin dir MinB MaxB location).Inside = true ↔
      ∀ i, i < 3 → MinB.get i ≤ origin.get i ∧ origin.get i ≤ MaxB.get i := by
  simp only [findCandidatePlanes, List.foldl_cons, List.foldl_nil, candidateStep_Inside]
  constructor
  · rintro ⟨⟨⟨_, h0⟩, h1⟩, h2⟩ i hi
    interval_cases i
    · exact h0
    · exact h1
    · exact h2
  · intro h
    exact ⟨⟨⟨trivial, h 0 (by decide)⟩, h 1 (by decide)⟩, h 2 (by decide)⟩

theorem whichPlane_lt (MaxT : Vector3) : whichPlane MaxT < 3 := by
  unfold whichPlane
  dsimp only
  split_ifs <;> decide

theorem whichPlane_max (MaxT : Vector3) (i : Nat) (hi : i < 3) :
    MaxT.get i ≤ MaxT.get (whichPlane MaxT) := by
  unfold whichPlane
  dsimp only
  interval_cases i <;> split_ifs <;> first | exact le_refl _ | linarith

end MyCollisionDetection

namespace MyCollisionDetection

theorem pointAt_get (origin dir : Vector3) (t : ℚ) (i : Nat) :
    (pointAt origin dir t).get i = origin.get i + t * dir.get i := by
  match i with
  | 0 => rfl
  | 1 => rfl
  | (_ + 2) => rfl

/-- On one axis: a point of the ray at parameter `t ≥ 0` inside the slab forces
the candidate distance of that axis to be at most `t`. -/
theorem axisMaxT_le {o d lo hi t : ℚ} (ht : 0 ≤ t) (h1 : lo ≤ o + t * d) (h2 : o + t * d ≤ hi) :
    axisMaxT o d lo hi ≤ t := by
  unfold axisMaxT
  split_ifs with ha hd hb hd'
  · have hdpos : 0 < d := by
      by_contra hneg
      have : t * d ≤ 0 := mul_nonpos_of_nonneg_of_nonpos ht (not_lt.mp hneg)
      linarith
    rw [div_le_iff₀ hdpos]
    linarith
  · linarith
  · have hdneg : d < 0 := by
      by_contra hpos
      have : 0 ≤ t * d := mul_nonneg ht (not_lt.mp hpos)
      linarith
    rw [div_le_iff_of_neg hdneg]
    linarith
  · linarith
  · linarith

/-- On one axis: a non-negative candidate distance is positive, belongs to an
origin outside the slab, and carries the origin onto the candidate plane, which
is the low or the high plane of the slab. -/
theorem axisMaxT_nonneg {o d lo hi : ℚ} (l : ℚ) (h : 0 ≤ axisMaxT o d lo hi) :
    0 < axisMaxT o d lo hi ∧ (o < lo ∨ hi < o) ∧
    o + axisMaxT o d lo hi * d = axisPlane o lo hi l ∧
    (axisPlane o lo hi l = lo ∨ axisPlane o lo hi l = hi) := by
  unfold axisMaxT at h ⊢
  unfold axisPlane
  split_ifs at h ⊢ with ha hd hb hd'
  · refine ⟨?_, Or.inl ha, ?_, Or.inl rfl⟩
    · have hne : (lo - o) / d ≠ 0 := div_ne_zero (by linarith) hd
      exact lt_of_le_of_ne h (Ne.symm hne)
    · rw [div_mul_cancel₀ _ hd]
      ring
  · linarith
  · refine ⟨?_, Or.inr hb, ?_, Or.inr rfl⟩
    · have hne : (hi - o) / d ≠ 0 := div_ne_zero (by linarith) hd'
      exact lt_of_le_of_ne h (Ne.symm hne)
    · rw [div_mul_cancel₀ _ hd']
      ring
  · linarith
  · linarith

/-- On one axis: an origin outside the slab whose ray reaches the slab has a
positive candidate distance. -/
theorem axisMaxT_pos_of_outside {o d lo hi t : ℚ} (ht : 0 ≤ t) (h1 : lo ≤ o + t * d)
    (h2 : o + t * d ≤ hi) (hout : o < lo ∨ hi < o) : 0 < axisMaxT o d lo hi := by
  unfold axisMaxT
  rcases hout with ha | hb
  · have hdpos : 0 < d := by
      by_contra hneg
      have : t * d ≤ 0 := mul_nonpos_of_nonneg_of_nonpos ht (not_lt.mp hneg)
      linarith
    rw [if_pos ha, if_pos (ne_of_gt hdpos)]
    exact div_pos (by linarith) hdpos
  · have hdneg : d < 0 := by
      by_contra hpos
      have : 0 ≤ t * d := mul_nonneg ht (not_lt.mp hpos)
      linarith
    have hna : ¬ o < lo := by
      intro ha
      have : 0 ≤ -(t * d) := by
        have := mul_nonpos_of_nonneg_of_nonpos ht (le_of_lt hdneg)
        linarith
      linarith
    rw [if_neg hna, if_pos hb, if_pos (ne_of_lt hdneg)]
    exact div_pos_of_neg_of_neg (by linarith) hdneg

/-- On one axis: between the candidate distance and a parameter at which the
ray is inside the slab, the ray is inside the slab. -/
theorem axis_inside_between {o d lo hi t t0 : ℚ} (h0 : 0 ≤ t0) (hle : t0 ≤ t)
    (hT : axisMaxT o d lo hi ≤ t0) (h1 : lo ≤ o + t * d) (h2 : o + t * d ≤ hi) :
    lo ≤ o + t0 * d ∧ o + t0 * d ≤ hi := by
  have ht : 0 ≤ t := le_trans h0 hle
  unfold axisMaxT at hT
  by_cases ha : o < lo
  · have hdpos : 0 < d := by
      by_contra hneg
      have : t * d ≤ 0 := mul_nonpos_of_nonneg_of_nonpos ht (not_lt.mp hneg)
      linarith
    rw [if_pos ha, if_pos (ne_of_gt hdpos), div_le_iff₀ hdpos] at hT
    have : t0 * d ≤ t * d := mul_le_mul_of_nonneg_right hle (le_of_lt hdpos)
    constructor <;> linarith
  · by_cases hb : o > hi
    · have hdneg : d < 0 := by
        by_contra hpos
        have : 0 ≤ t * d := mul_nonneg ht (not_lt.mp hpos)
        linarith
      rw [if_neg ha, if_pos hb, if_pos (ne_of_lt hdneg), div_le_iff_of_neg hdneg] at hT
      have : t * d ≤ t0 * d := mul_le_mul_of_nonpos_right hle (le_of_lt hdneg)
      constructor <;> linarith
    · rcases le_total 0 d with hd | hd
      · have e1 : 0 ≤ t0 * d := mul_nonneg h0 hd
        have e2 : t0 * d ≤ t * d := mul_le_mul_of_nonneg_right hle hd
        constructor <;> linarith
      · have e1 : t0 * d ≤ 0 := mul_nonpos_of_nonneg_of_nonpos h0 hd
        have e2 : t * d ≤ t0 * d := mul_le_mul_of_nonpos_right hle hd
        constructor <;> linarith

end MyCollisionDetection

namespace MyCollisionDetection

theorem extentStep_ok (origin dir MinB MaxB MaxT : Vector3) (W : Nat) (s : Vector3 × Bool)
    (i : Nat) (hs : s.2 = false)
    (h : i ≠ W → MinB.get i ≤ origin.get i + MaxT.get W * dir.get i ∧
      origin.get i + MaxT.get W * dir.get i ≤ MaxB.get i) :
    extentStep origin dir MinB MaxB MaxT W s i =
      (if i = W then s.1 else s.1.set i (origin.get i + MaxT.get W * dir.get i), false) := by
  unfold extentStep
  by_cases hiw : i = W
  · simp [hs, hiw]
    exact Prod.ext rfl hs
  · obtain ⟨h1, h2⟩ := h hiw
    simp [hs, hiw, Vector3.get_set_eq, not_lt.mpr h1, not_lt.mpr h2]

theorem extentStep_false (origin dir MinB MaxB MaxT : Vector3) (W : Nat) (s : Vector3 × Bool)
    (i : Nat) (h : (extentStep origin dir MinB MaxB MaxT W s i).2 = false) :
    s.2 = false ∧ (i ≠ W → MinB.get i ≤ origin.get i + MaxT.get W * dir.get i ∧
      origin.get i + MaxT.get W * dir.get i ≤ MaxB.get i) := by
  unfold extentStep at h
  by_cases hs : s.2 = true
  · simp [hs] at h
  · have hs' : s.2 = false := by simpa using hs
    refine ⟨hs', ?_⟩
    intro hiw
    simp only [hs', if_pos hiw, Vector3.get_set_eq] at h
    by_contra hcon
    have : origin.get i + MaxT.get W * dir.get i < MinB.get i ∨
        origin.get i + MaxT.get W * dir.get i > MaxB.get i := by
      by_contra hn
      push_neg at hn
      exact hcon ⟨hn.1, hn.2⟩
    simp [this] at h

/-- The last loop passes exactly when the point at distance `MaxT[WhichPlane]`
is within the box on the two other axes. -/
theorem extent_fold_false_iff (origin dir MinB MaxB MaxT location : Vector3) (W : Nat) :
    ([0, 1, 2].foldl (extentStep origin dir MinB MaxB MaxT W) (location, false)).2 = false ↔
      ∀ i, i < 3 → i ≠ W → MinB.get i ≤ origin.get i + MaxT.get W * dir.get i ∧
        origin.get i + MaxT.get W * dir.get i ≤ MaxB.get i := by
  simp only [List.foldl_cons, List.foldl_nil]
  constructor
  · intro h i hi
    obtain ⟨h2, c2⟩ := extentStep_false _ _ _ _ _ _ _ _ h
    obtain ⟨h1, c1⟩ := extentStep_false _ _ _ _ _ _ _ _ h2
    obtain ⟨_, c0⟩ := extentStep_false _ _ _ _ _ _ _ _ h1
    interval_cases i
    · exact c0
    · exact c1
    · exact c2
  · intro h
    rw [extentStep_ok _ _ _ _ _ _ _ 0 rfl (h 0 (by decide)),
      extentStep_ok _ _ _ _ _ _ _ 1 rfl (h 1 (by decide)),
      extentStep_ok _ _ _ _ _ _ _ 2 rfl (h 2 (by decide))]

/-- When the last loop passes, `location` holds the point at distance
`MaxT[WhichPlane]` on the two other axes and is untouched on `WhichPlane`. -/
theorem extent_fold_location (origin dir MinB MaxB MaxT location : Vector3) (W : Nat)
    (h : ∀ i, i < 3 → i ≠ W → MinB.get i ≤ origin.get i + MaxT.get W * dir.get i ∧
        origin.get i + MaxT.get W * dir.get i ≤ MaxB.get i) (i : Nat) (hi : i < 3) :
    ([0, 1, 2].foldl (extentStep origin dir MinB MaxB MaxT W) (location, false)).1.get i =
      if i = W then location.get i else origin.get i + MaxT.get W * dir.get i := by
  simp only [List.foldl_cons, List.foldl_nil]
  rw [extentStep_ok _ _ _ _ _ _ _ 0 rfl (h 0 (by decide)),
    extentStep_ok _ _ _ _ _ _ _ 1 rfl (h 1 (by decide)),
    extentStep_ok _ _ _ _ _ _ _ 2 rfl (h 2 (by decide))]
  by_cases h0 : 0 = W <;> by_cases h1 : 1 = W <;> by_cases h2 : 2 = W <;>
    interval_cases i <;> simp [h0, h1, h2, Vector3.get, Vector3.set]

end MyCollisionDetection

/-- Over exact rationals: when the origin is outside the closed box and the ray
reaches the box, the exact reading returns true with `Inside = false` and
`location = origin + t0 * dir`, where `t0 ≥ 0` is the least parameter at which
the ray is in the box. -/
theorem MyCollisionDetection.first_hit_rat (origin dir : Vector3) (box : AABox) (location : Vector3) (t : ℚ)
    (hout : ¬ MyCollisionDetection.inBox box origin) (ht : 0 ≤ t)
    (hhit : MyCollisionDetection.inBox box (MyCollisionDetection.pointAt origin dir t)) :
    ∃ t0 : ℚ, 0 ≤ t0 ∧
      MyCollisionDetection.inBox box (MyCollisionDetection.pointAt origin dir t0) ∧
      (∀ t' : ℚ, 0 ≤ t' →
        MyCollisionDetection.inBox box (MyCollisionDetection.pointAt origin dir t') → t0 ≤ t') ∧
      (MyCollisionDetection.collisionLocationForMovingPointFixedAABox
        origin dir box location).result = true ∧
      (MyCollisionDetection.collisionLocationForMovingPointFixedAABox
        origin dir box location).Inside = false ∧
      (MyCollisionDetection.collisionLocationForMovingPointFixedAABox
        origin dir box location).location = MyCollisionDetection.pointAt origin dir t0 := by
  open MyCollisionDetection in
  have hMaxT := findCandidatePlanes_MaxT origin dir box.low box.high location
  have hLoc := findCandidatePlanes_location origin dir box.low box.high location
  have hIn : (findCandidatePlanes origin dir box.low box.high location).Inside = false := by
    cases hI : (findCandidatePlanes origin dir box.low box.high location).Inside with
    | false => rfl
    | true => exact absurd ((findCandidatePlanes_Inside _ _ _ _ _).mp hI) hout
  -- every candidate distance is at most any parameter at which the ray is in the box
  have hle : ∀ t' : ℚ, 0 ≤ t' → inBox box (pointAt origin dir t') → ∀ i, i < 3 →
      (findCandidatePlanes origin dir box.low box.high location).MaxT.get i ≤ t' := by
    intro t' ht' hb i hi
    have := hb i hi
    rw [pointAt_get] at this
    rw [hMaxT i hi]
    exact axisMaxT_le ht' this.1 this.2
  -- some axis is outside, and its candidate distance is positive
  have hpos : ∃ j, j < 3 ∧
      0 < (findCandidatePlanes origin dir box.low box.high location).MaxT.get j := by
    unfold inBox at hout
    push_neg at hout
    obtain ⟨j, hj, hjout⟩ := hout
    refine ⟨j, hj, ?_⟩
    have := hhit j hj
    rw [pointAt_get] at this
    rw [hMaxT j hj]
    refine axisMaxT_pos_of_outside ht this.1 this.2 ?_
    by_cases hlo : origin.get j < box.low.get j
    · exact Or.inl hlo
    · exact Or.inr (hjout (not_lt.mp hlo))
  set c := findCandidatePlanes origin dir box.low box.high location with hc
  set W := whichPlane c.MaxT with hW
  have hWlt : W < 3 := whichPlane_lt c.MaxT
  have hWpos : 0 < c.MaxT.get W := by
    obtain ⟨j, hj, hjpos⟩ := hpos
    exact lt_of_lt_of_le hjpos (whichPlane_max c.MaxT j hj)
  have hWt : c.MaxT.get W ≤ t := hle t ht hhit W hWlt
  -- the point at the largest candidate distance is in the box
  have hin0 : ∀ i, i < 3 → box.low.get i ≤ origin.get i + c.MaxT.get W * dir.get i ∧
      origin.get i + c.MaxT.get W * dir.get i ≤ box.high.get i := by
    intro i hi
    have hb := hhit i hi
    rw [pointAt_get] at hb
    refine axis_inside_between (le_of_lt hWpos) hWt ?_ hb.1 hb.2
    rw [← hMaxT i hi]
    exact whichPlane_max c.MaxT i hi
  have hplane := axisMaxT_nonneg (location.get W)
    (by rw [← hMaxT W hWlt]; exact le_of_lt hWpos :
      0 ≤ axisMaxT (origin.get W) (dir.get W) (box.low.get W) (box.high.get W))
  have hfold := (extent_fold_false_iff origin dir box.low box.high c.MaxT c.location W).mpr
    (fun i hi _ => hin0 i hi)
  have hfun : collisionLocationForMovingPointFixedAABox origin dir box location =
      { result := !([0, 1, 2].foldl (extentStep origin dir box.low box.high c.MaxT W)
          (c.location, false)).2
        location := ([0, 1, 2].foldl (extentStep origin dir box.low box.high c.MaxT W)
          (c.location, false)).1
        Inside := false } := by
    simp only [collisionLocationForMovingPointFixedAABox, ← hc, hIn, ← hW,
      not_lt.mpr (le_of_lt hWpos), Bool.false_eq_true, if_false]
  rw [hfun]
  refine ⟨c.MaxT.get W, le_of_lt hWpos, ?_, ?_, ?_, rfl, ?_⟩
  · intro i hi
    rw [pointAt_get]
    exact hin0 i hi
  · intro t' ht' hb
    exact hle t' ht' hb W hWlt
  · show (!([0, 1, 2].foldl (extentStep origin dir box.low box.high c.MaxT W)
      (c.location, false)).2) = true
    rw [hfold]
    rfl
  · apply Vector3.ext_get
    intro i hi
    show ([0, 1, 2].foldl (extentStep origin dir box.low box.high c.MaxT W)
      (c.location, false)).1.get i = _
    rw [extent_fold_location origin dir box.low box.high c.MaxT c.location W
      (fun i hi _ => hin0 i hi) i hi, pointAt_get]
    by_cases hiW : i = W
    · rw [if_pos hiW, hiW, hLoc W hWlt, ← hplane.2.2.1, hMaxT W hWlt]
    · rw [if_neg hiW]

theorem F32.lt_eq_of_isFinite {a b : F32} (ha : a.isFinite = true) (hb : b.isFinite = true) :
    F32.lt a b = decide (a.val < b.val) := by
  cases a <;> cases b <;> simp [F32.isFinite] at ha hb <;> rfl

theorem F32.gt_eq_of_isFinite {a b : F32} (ha : a.isFinite = true) (hb : b.isFinite = true) :
    F32.gt a b = decide (b.val < a.val) :=
  F32.lt_eq_of_isFinite hb ha

theorem F32.eq_fin_of_exact {x : F32} {q : ℚ} (h : F32.Exact x q) (hq : q ≠ 0) :
    x = .fin q := by
  obtain ⟨hf, hv⟩ := h
  cases x with
  | nan s => simp [F32.isFinite] at hf
  | inf s => simp [F32.isFinite] at hf
  | nzero => exact absurd hv.symm hq
  | fin v => exact congrArg F32.fin hv

theorem F32.div_nzero_isFinite (dn : Bool) (a : F32) :
    (F32.div dn a .nzero).isFinite = false := by
  cases a with
  | nan s => rfl
  | inf s => rfl
  | nzero => rfl
  | fin v =>
    by_cases hv : v = 0
    · simp [F32.div, F32.isZero, hv, F32.isFinite]
    · simp [F32.div, F32.isZero, hv, F32.isFinite]

namespace G3D

theorem Vector3.get_set_eq_f32 (v : Vector3) (i : Nat) (a : F32) : (v.set i a).get i = a := by
  match i with
  | 0 => rfl
  | 1 => rfl
  | (_ + 2) => rfl

theorem Vector3.get_set_ne_f32 (v : Vector3) {i j : Nat} (hi : i < 3) (hj : j < 3) (hij : j ≠ i)
    (a : F32) : (v.set i a).get j = v.get j := by
  interval_cases i <;> interval_cases j <;> first | rfl | exact absurd rfl hij

theorem Vector3.val_get (v : Vector3) (i : Nat) : v.val.get i = (v.get i).val := by
  match i with
  | 0 => rfl
  | 1 => rfl
  | (_ + 2) => rfl

theorem Vector3.isFinite_get {v : Vector3} (h : v.isFinite = true) (i : Nat) :
    (v.get i).isFinite = true := by
  simp only [Vector3.isFinite, Bool.and_eq_true] at h
  match i with
  | 0 => exact h.1.1
  | 1 => exact h.1.2
  | (_ + 2) => exact h.2

theorem Vector3.isFinite_of_get {v : Vector3} (h : ∀ i, i < 3 → (v.get i).isFinite = true) :
    v.isFinite = true := by
  have h0 := h 0 (by decide)
  have h1 := h 1 (by decide)
  have h2 := h 2 (by decide)
  simp only [Vector3.get] at h0 h1 h2
  simp [Vector3.isFinite, h0, h1, h2]

end G3D

namespace VMAP.MyCollisionDetection

theorem candidateStep_MaxT_ne_f32 (dn : Bool) (origin dir MinB MaxB : G3D.Vector3)
    (s : Candidates) {i j : Nat} (hi : i < 3) (hj : j < 3) (hij : j ≠ i) :
    (candidateStep dn origin dir MinB MaxB s i).MaxT.get j = s.MaxT.get j := by
  unfold candidateStep
  split_ifs <;> simp [G3D.Vector3.get_set_ne_f32 _ hi hj hij]

theorem candidateStep_MaxT_eq_f32 (dn : Bool) (origin dir MinB MaxB : G3D.Vector3)
    (s : Candidates) (i : Nat) (hs : s.MaxT.get i = .fin (-1)) :
    (candidateStep dn origin dir MinB MaxB s i).MaxT.get i =
      axisMaxT dn (origin.get i) (dir.get i) (MinB.get i) (MaxB.get i) := by
  unfold candidateStep axisMaxT candidatePlane
  split_ifs <;> simp_all [G3D.Vector3.get_set_eq_f32]

theorem candidateStep_location_ne_f32 (dn : Bool) (origin dir MinB MaxB : G3D.Vector3)
    (s : Candidates) {i j : Nat} (hi : i < 3) (hj : j < 3) (hij : j ≠ i) :
    (candidateStep dn origin dir MinB MaxB s i).location.get j = s.location.get j := by
  unfold candidateStep
  split_ifs <;> simp [G3D.Vector3.get_set_ne_f32 _ hi hj hij]

theorem candidateStep_location_eq_f32 (dn : Bool) (origin dir MinB MaxB : G3D.Vector3)
    (s : Candidates) (i : Nat) :
    (candidateStep dn origin dir MinB MaxB s i).location.get i =
      axisPlane (origin.get i) (MinB.get i) (MaxB.get i) (s.location.get i) := by
  unfold candidateStep axisPlane candidatePlane
  split_ifs <;> simp [G3D.Vector3.get_set_eq_f32]

theorem candidateStep_Inside_f32 (dn : Bool) (origin dir MinB MaxB : G3D.Vector3)
    (s : Candidates) (i : Nat) :
    (candidateStep dn origin dir MinB MaxB s i).Inside = true ↔
      s.Inside = true ∧ candidatePlane (origin.get i) (MinB.get i) (MaxB.get i) = none := by
  unfold candidateStep candidatePlane
  split_ifs <;> simp

theorem findCandidatePlanes_MaxT_f32 (dn : Bool)
    (origin dir MinB MaxB location : G3D.Vector3) (i : Nat) (hi : i < 3) :
    (findCandidatePlanes dn origin dir MinB MaxB location).MaxT.get i =
      axisMaxT dn (origin.get i) (dir.get i) (MinB.get i) (MaxB.get i) := by
  simp only [findCandidatePlanes, List.foldl_cons, List.foldl_nil]
  interval_cases i
  · rw [candidateStep_MaxT_ne_f32 _ _ _ _ _ _ (by decide) (by decide) (by decide),
      candidateStep_MaxT_ne_f32 _ _ _ _ _ _ (by decide) (by decide) (by decide),
      candidateStep_MaxT_eq_f32]
    rfl
  · rw [candidateStep_MaxT_ne_f32 _ _ _ _ _ _ (by decide) (by decide) (by decide),
      candidateStep_MaxT_eq_f32]
    rw [candidateStep_MaxT_ne_f32 _ _ _ _ _ _ (by decide) (by decide) (by decide)]
    rfl
  · rw [candidateStep_MaxT_eq_f32]
    rw [candidateStep_MaxT_ne_f32 _ _ _ _ _ _ (by decide) (by decide) (by decide),
      candidateStep_MaxT_ne_f32 _ _ _ _ _ _ (by decide) (by decide) (by decide)]
    rfl

theorem findCandidatePlanes_location_f32 (dn : Bool)
    (origin dir MinB MaxB location : G3D.Vector3) (i : Nat) (hi : i < 3) :
    (findCandidatePlanes dn origin dir MinB MaxB location).location.get i =
      axisPlane (origin.get i) (MinB.get i) (MaxB.get i) (location.get i) := by
  simp only [findCandidatePlanes, List.foldl_cons, List.foldl_nil]
  interval_cases i
  · rw [candidateStep_location_ne_f32 _ _ _ _ _ _ (by decide) (by decide) (by decide),
      candidateStep_location_ne_f32 _ _ _ _ _ _ (by decide) (by decide) (by decide),
      candidateStep_location_eq_f32]
  · rw [candidateStep_location_ne_f32 _ _ _ _ _ _ (by decide) (by decide) (by decide),
      candidateStep_location_eq_f32,
      candidateStep_location_ne_f32 _ _ _ _ _ _ (by decide) (by decide) (by decide)]
  · rw [candidateStep_location_eq_f32,
      candidateStep_location_ne_f32 _ _ _ _ _ _ (by decide) (by decide) (by decide),
      candidateStep_location_ne_f32 _ _ _ _ _ _ (by decide) (by decide) (by decide)]

theorem findCandidatePlanes_Inside_f32 (dn : Bool)
    (origin dir MinB MaxB location : G3D.Vector3) :
    (findCandidatePlanes dn origin dir MinB MaxB location).Inside = true ↔
      ∀ i, i < 3 → candidatePlane (origin.get i) (MinB.get i) (MaxB.get i) = none := by
  simp only [findCandidatePlanes, List.foldl_cons, List.foldl_nil, candidateStep_Inside_f32]
  constructor
  · rintro ⟨⟨⟨_, h0⟩, h1⟩, h2⟩ i hi
    interval_cases i
    · exact h0
    · exact h1
    · exact h2
  · intro h
    exact ⟨⟨⟨trivial, h 0 (by decide)⟩, h 1 (by decide)⟩, h 2 (by decide)⟩

theorem whichPlane_lt_f32 (MaxT : G3D.Vector3) : whichPlane MaxT < 3 := by
  unfold whichPlane
  dsimp only
  split_ifs <;> decide


/-- On finite values the candidate plane is the one of the exact reading. -/
theorem candidatePlane_eq {o lo hi : F32} (ho : o.isFinite = true) (hlo : lo.isFinite = true)
    (hhi : hi.isFinite = true) :
    candidatePlane o lo hi =
      if o.val < lo.val then some lo else if o.val > hi.val then some hi else none := by
  unfold candidatePlane
  rw [F32.lt_eq_of_isFinite ho hlo, F32.gt_eq_of_isFinite ho hhi]
  simp only [decide_eq_true_eq, gt_iff_lt]

/-- An exact candidate distance is a plain finite value, the one of the exact
reading. -/
theorem plane_distance_eq_fin (dn : Bool) {o d b : F32} (hd : d.isFinite = true)
    (hb : b.val ≠ o.val)
    (hx : F32.IR d = true →
      F32.Exact (F32.div dn (F32.sub dn b o) d) ((b.val - o.val) / d.val)) :
    (if F32.IR d then F32.div dn (F32.sub dn b o) d else .fin (-1)) =
      .fin (if d.val ≠ 0 then (b.val - o.val) / d.val else -1) := by
  cases d with
  | nan s => simp [F32.isFinite] at hd
  | inf s => simp [F32.isFinite] at hd
  | nzero =>
    have h := (hx (by decide)).1
    rw [F32.div_nzero_isFinite] at h
    exact absurd h (by decide)
  | fin v =>
    by_cases hv : v = 0
    · subst hv
      simp [F32.IR, F32.val]
    · have hIR : F32.IR (.fin v) = true := by simp [F32.IR, hv]
      have hq : (b.val - o.val) / v ≠ 0 := div_ne_zero (sub_ne_zero.mpr hb) hv
      have := F32.eq_fin_of_exact (hx hIR) hq
      simp only [F32.val] at this ⊢
      rw [if_pos hIR, this, if_pos hv]

theorem axisMaxT_eq_fin (dn : Bool) {o d lo hi : F32} (ho : o.isFinite = true)
    (hd : d.isFinite = true) (hlo : lo.isFinite = true) (hhi : hi.isFinite = true)
    (hx : ∀ b ∈ candidatePlane o lo hi, F32.IR d = true →
      F32.Exact (F32.div dn (F32.sub dn b o) d) ((b.val - o.val) / d.val)) :
    axisMaxT dn o d lo hi =
      .fin (WarheadBand.MyCollisionDetection.axisMaxT o.val d.val lo.val hi.val) := by
  unfold axisMaxT WarheadBand.MyCollisionDetection.axisMaxT
  rw [candidatePlane_eq ho hlo hhi] at hx ⊢
  by_cases h1 : o.val < lo.val
  · rw [if_pos h1] at hx ⊢
    simp only [if_pos h1]
    exact plane_distance_eq_fin dn hd (ne_of_gt h1) (hx lo rfl)
  · rw [if_neg h1] at hx ⊢
    by_cases h2 : o.val > hi.val
    · rw [if_pos h2] at hx ⊢
      simp only [if_neg h1, if_pos h2]
      exact plane_distance_eq_fin dn hd (ne_of_lt h2) (hx hi rfl)
    · rw [if_neg h2]
      simp only [if_neg h1, if_neg h2]

theorem axisPlane_val {o lo hi : F32} (l : F32) (ho : o.isFinite = true)
    (hlo : lo.isFinite = true) (hhi : hi.isFinite = true) :
    (axisPlane o lo hi l).val =
      WarheadBand.MyCollisionDetection.axisPlane o.val lo.val hi.val l.val := by
  unfold axisPlane WarheadBand.MyCollisionDetection.axisPlane
  rw [candidatePlane_eq ho hlo hhi]
  split_ifs <;> rfl

theorem candidatePlane_eq_none_iff {o lo hi : F32} (ho : o.isFinite = true)
    (hlo : lo.isFinite = true) (hhi : hi.isFinite = true) :
    candidatePlane o lo hi = none ↔ lo.val ≤ o.val ∧ o.val ≤ hi.val := by
  rw [candidatePlane_eq ho hlo hhi]
  split_ifs with h1 h2
  · simp [not_le.mpr h1]
  · simp [not_le.mpr h2]
  · simp [not_lt.mp h1, not_lt.mp h2]

/-- Under exact arithmetic the first loop leaves the candidate distances, the
candidate planes and the flag of the exact reading. -/
theorem findCandidatePlanes_refines (dn : Bool) (origin dir : G3D.Vector3) (box : G3D.AABox)
    (location : G3D.Vector3) (hex : ExactArithmetic dn origin dir box) :
    (∀ i, i < 3 →
      (findCandidatePlanes dn origin dir box.low box.high location).MaxT.get i =
        .fin ((WarheadBand.MyCollisionDetection.findCandidatePlanes origin.val dir.val
          box.val.low box.val.high location.val).MaxT.get i)) ∧
    (∀ i, i < 3 →
      ((findCandidatePlanes dn origin dir box.low box.high location).location.get i).val =
        (WarheadBand.MyCollisionDetection.findCandidatePlanes origin.val dir.val
          box.val.low box.val.high location.val).location.get i) ∧
    (findCandidatePlanes dn origin dir box.low box.high location).Inside =
      (WarheadBand.MyCollisionDetection.findCandidatePlanes origin.val dir.val
        box.val.low box.val.high location.val).Inside := by
  obtain ⟨⟨hfo, hfd, hflo, hfhi⟩, hx⟩ := hex
  have ho := fun i => G3D.Vector3.isFinite_get hfo i
  have hd := fun i => G3D.Vector3.isFinite_get hfd i
  have hlo := fun i => G3D.Vector3.isFinite_get hflo i
  have hhi := fun i => G3D.Vector3.isFinite_get hfhi i
  have hlow : box.val.low = box.low.val := rfl
  have hhigh : box.val.high = box.high.val := rfl
  rw [hlow, hhigh]
  refine ⟨?_, ?_, ?_⟩
  · intro i hi
    rw [findCandidatePlanes_MaxT_f32 dn _ _ _ _ _ i hi,
      WarheadBand.MyCollisionDetection.findCandidatePlanes_MaxT _ _ _ _ _ i hi,
      G3D.Vector3.val_get, G3D.Vector3.val_get, G3D.Vector3.val_get, G3D.Vector3.val_get]
    exact axisMaxT_eq_fin dn (ho i) (hd i) (hlo i) (hhi i)
      (fun b hb hIR => (hx i hi b hb hIR).1)
  · intro i hi
    rw [findCandidatePlanes_location_f32 dn _ _ _ _ _ i hi,
      WarheadBand.MyCollisionDetection.findCandidatePlanes_location _ _ _ _ _ i hi,
      G3D.Vector3.val_get, G3D.Vector3.val_get, G3D.Vector3.val_get, G3D.Vector3.val_get]
    exact axisPlane_val _ (ho i) (hlo i) (hhi i)
  · rw [Bool.eq_iff_iff, findCandidatePlanes_Inside_f32,
      WarheadBand.MyCollisionDetection.findCandidatePlanes_Inside]
    constructor
    · intro h i hi
      rw [G3D.Vector3.val_get, G3D.Vector3.val_get, G3D.Vector3.val_get]
      exact (candidatePlane_eq_none_iff (ho i) (hlo i) (hhi i)).mp (h i hi)
    · intro h i hi
      have := h i hi
      rw [G3D.Vector3.val_get, G3D.Vector3.val_get, G3D.Vector3.val_get] at this
      exact (candidatePlane_eq_none_iff (ho i) (hlo i) (hhi i)).mpr this

theorem whichPlane_eq (MaxT : G3D.Vector3) (M : WarheadBand.Vector3)
    (h : ∀ i, i < 3 → MaxT.get i = .fin (M.get i)) :
    whichPlane MaxT = WarheadBand.MyCollisionDetection.whichPlane M := by
  have h0 := h 0 (by decide)
  have h1 := h 1 (by decide)
  have h2 := h 2 (by decide)
  have hgt : ∀ a b : ℚ, F32.gt (.fin a) (.fin b) = decide (a > b) := fun _ _ => rfl
  unfold whichPlane WarheadBand.MyCollisionDetection.whichPlane
  dsimp only
  rw [h1, h0, hgt]
  by_cases c1 : M.get 1 > M.get 0
  · simp only [c1, decide_True, if_true]
    rw [h2, h1, hgt]
    by_cases c2 : M.get 2 > M.get 1 <;> simp [c2]
  · simp only [c1, decide_False, if_false, Bool.false_eq_true]
    rw [h2, h0, hgt]
    by_cases c2 : M.get 2 > M.get 0 <;> simp [c2]

theorem extentStep_false_f32 (dn : Bool) (origin dir MinB MaxB MaxT : G3D.Vector3) (W : Nat)
    (s : G3D.Vector3 × Bool) (i : Nat)
    (h : (extentStep dn origin dir MinB MaxB MaxT W s i).2 = false) :
    s.2 = false ∧
      (extentStep dn origin dir MinB MaxB MaxT W s i).1 =
        if i = W then s.1
        else s.1.set i (F32.add dn (origin.get i) (F32.mul dn (MaxT.get W) (dir.get i))) := by
  unfold extentStep at h ⊢
  cases hs : s.2 with
  | true => simp [hs] at h
  | false =>
    refine ⟨rfl, ?_⟩
    by_cases hiW : i = W
    · simp [hiW]
    · simp only [Bool.false_eq_true, if_false, ne_eq, hiW, not_false_eq_true, if_true]
      split_ifs <;> rfl

/-- When the last loop passes, `location` holds the computed coordinates on the
two other axes and is untouched on `WhichPlane`. -/
theorem extent_fold_location_f32 (dn : Bool) (origin dir MinB MaxB MaxT location : G3D.Vector3)
    (W : Nat)
    (h : ([0, 1, 2].foldl (extentStep dn origin dir MinB MaxB MaxT W) (location, false)).2 =
      false) (i : Nat) (hi : i < 3) :
    ([0, 1, 2].foldl (extentStep dn origin dir MinB MaxB MaxT W) (location, false)).1.get i =
      if i = W then location.get i
      else F32.add dn (origin.get i) (F32.mul dn (MaxT.get W) (dir.get i)) := by
  simp only [List.foldl_cons, List.foldl_nil] at h ⊢
  obtain ⟨h2, e2⟩ := extentStep_false_f32 _ _ _ _ _ _ _ _ _ h
  obtain ⟨h1, e1⟩ := extentStep_false_f32 _ _ _ _ _ _ _ _ _ h2
  obtain ⟨_, e0⟩ := extentStep_false_f32 _ _ _ _ _ _ _ _ _ h1
  rw [e2, e1, e0]
  by_cases h0 : 0 = W <;> by_cases h1 : 1 = W <;> by_cases h2 : 2 = W <;>
    interval_cases i <;> simp [h0, h1, h2, G3D.Vector3.get, G3D.Vector3.set]

theorem candidatePlane_low_or_high {o lo hi b : F32} (h : candidatePlane o lo hi = some b) :
    b = lo ∨ b = hi := by
  unfold candidatePlane at h
  split_ifs at h
  · exact Or.inl (Option.some.inj h).symm
  · exact Or.inr (Option.some.inj h).symm

/-- When the sign bit of `MaxT[WhichPlane]` is clear, the origin is outside the
slab of `WhichPlane`, the bits of `dir[WhichPlane]` are not zero, `MaxT` holds
the computed distance to the candidate plane and `location` that plane. -/
theorem chosen_axis_f32 (dn : Bool) (origin dir MinB MaxB location : G3D.Vector3) (W : Nat)
    (hW : W < 3)
    (hs : F32.signBit ((findCandidatePlanes dn origin dir MinB MaxB location).MaxT.get W) =
      false) :
    ∃ b, candidatePlane (origin.get W) (MinB.get W) (MaxB.get W) = some b ∧
      F32.IR (dir.get W) = true ∧
      (findCandidatePlanes dn origin dir MinB MaxB location).MaxT.get W =
        F32.div dn (F32.sub dn b (origin.get W)) (dir.get W) ∧
      (findCandidatePlanes dn origin dir MinB MaxB location).location.get W = b := by
  rw [findCandidatePlanes_MaxT_f32 dn _ _ _ _ _ W hW] at hs ⊢
  rw [findCandidatePlanes_location_f32 dn _ _ _ _ _ W hW]
  unfold axisMaxT at hs ⊢
  unfold axisPlane
  cases hp : candidatePlane (origin.get W) (MinB.get W) (MaxB.get W) with
  | none =>
    rw [hp] at hs
    simp [F32.signBit, F32.sign] at hs
  | some b =>
    rw [hp] at hs
    by_cases hIR : F32.IR (dir.get W) = true
    · exact ⟨b, rfl, hIR, by simp only [hIR, if_true], rfl⟩
    · simp [hIR, F32.signBit, F32.sign] at hs

/-- Under exact arithmetic a hit with `Inside = false` leaves a finite
`location`, whose coordinate on `WhichPlane` is the low or the high plane of
the box. -/
theorem collision_hit_location (dn : Bool) (origin dir : G3D.Vector3) (box : G3D.AABox)
    (location : G3D.Vector3) (hex : ExactArithmetic dn origin dir box)
    (hres : (collisionLocationForMovingPointFixedAABox dn origin dir box location).result = true)
    (hins : (collisionLocationForMovingPointFixedAABox dn origin dir box location).Inside =
      false) :
    (collisionLocationForMovingPointFixedAABox dn origin dir box location).location.isFinite =
      true ∧
    ((collisionLocationForMovingPointFixedAABox dn origin dir box location).location.get
        (whichPlane (findCandidatePlanes dn origin dir box.low box.high location).MaxT) =
      box.low.get (whichPlane (findCandidatePlanes dn origin dir box.low box.high location).MaxT) ∨
    (collisionLocationForMovingPointFixedAABox dn origin dir box location).location.get
        (whichPlane (findCandidatePlanes dn origin dir box.low box.high location).MaxT) =
      box.high.get
        (whichPlane (findCandidatePlanes dn origin dir box.low box.high location).MaxT)) := by
  have hlo := fun i => G3D.Vector3.isFinite_get hex.1.2.2.1 i
  have hhi := fun i => G3D.Vector3.isFinite_get hex.1.2.2.2 i
  have hch := chosen_axis_f32 dn origin dir box.low box.high location
  unfold collisionLocationForMovingPointFixedAABox at hres hins ⊢
  dsimp only at hres hins ⊢
  set c := findCandidatePlanes dn origin dir box.low box.high location with hc
  set W := whichPlane c.MaxT with hW
  have hWlt : W < 3 := whichPlane_lt_f32 c.MaxT
  have hI : c.Inside = false := by
    cases hI : c.Inside with
    | false => rfl
    | true => simp [hI] at hins
  have hs : F32.signBit (c.MaxT.get W) = false := by
    cases hs : F32.signBit (c.MaxT.get W) with
    | false => rfl
    | true => simp [hI, hs] at hres
  simp only [hI, hs, Bool.false_eq_true, if_false] at hres ⊢
  have hfold : ([0, 1, 2].foldl (extentStep dn origin dir box.low box.high c.MaxT W)
      (c.location, false)).2 = false := by
    simpa using hres
  have hget := extent_fold_location_f32 dn origin dir box.low box.high c.MaxT c.location W hfold
  obtain ⟨b, hb, hIR, hM, hL⟩ := hch W hWlt hs
  have hbf : b.isFinite = true := by
    rcases candidatePlane_low_or_high hb with h | h
    · rw [h]
      exact hlo W
    · rw [h]
      exact hhi W
  constructor
  · apply G3D.Vector3.isFinite_of_get
    intro i hi
    rw [hget i hi]
    by_cases hiW : i = W
    · rw [if_pos hiW, hiW, hL]
      exact hbf
    · rw [if_neg hiW, hM]
      exact ((hex.2 W hWlt b hb hIR).2 i hi hiW).1
  · rw [hget W hWlt, if_pos rfl, hL]
    exact candidatePlane_low_or_high hb

/-- One iteration of the last loop follows the exact reading when the
coordinate it computes is exact. -/
theorem extentStep_refines (dn : Bool) (origin dir MinB MaxB MaxT : G3D.Vector3)
    (M : WarheadBand.Vector3) (W : Nat) (s : G3D.Vector3 × Bool)
    (sq : WarheadBand.Vector3 × Bool) (i : Nat) (hi : i < 3)
    (hlo : (MinB.get i).isFinite = true) (hhi : (MaxB.get i).isFinite = true)
    (hx : i ≠ W →
      F32.Exact (F32.add dn (origin.get i) (F32.mul dn (MaxT.get W) (dir.get i)))
        (origin.val.get i + M.get W * dir.val.get i))
    (hs2 : s.2 = sq.2) (hs1 : ∀ k, k < 3 → (s.1.get k).val = sq.1.get k) :
    (extentStep dn origin dir MinB MaxB MaxT W s i).2 =
        (WarheadBand.MyCollisionDetection.extentStep origin.val dir.val MinB.val MaxB.val M W
          sq i).2 ∧
      ∀ k, k < 3 →
        ((extentStep dn origin dir MinB MaxB MaxT W s i).1.get k).val =
          (WarheadBand.MyCollisionDetection.extentStep origin.val dir.val MinB.val MaxB.val M W
            sq i).1.get k := by
  unfold extentStep WarheadBand.MyCollisionDetection.extentStep
  rw [hs2]
  by_cases hb : sq.2 = true
  · simp only [hb, if_true]
    exact ⟨hs2.trans hb, hs1⟩
  · have hb' : sq.2 = false := by simpa using hb
    simp only [hb', Bool.false_eq_true, if_false]
    by_cases hiW : i = W
    · simp only [hiW, ne_eq, not_true_eq_false, if_false]
      exact ⟨hs2, hs1⟩
    · obtain ⟨hfin, hval⟩ := hx hiW
      simp only [ne_eq, hiW, not_false_eq_true, if_true, G3D.Vector3.get_set_eq_f32,
        WarheadBand.Vector3.get_set_eq]
      rw [F32.lt_eq_of_isFinite hfin hlo, F32.gt_eq_of_isFinite hfin hhi, hval,
        G3D.Vector3.val_get MinB, G3D.Vector3.val_get MaxB]
      have hk : ∀ k, k < 3 →
          ((s.1.set i (F32.add dn (origin.get i)
              (F32.mul dn (MaxT.get W) (dir.get i)))).get k).val =
            (sq.1.set i (origin.val.get i + M.get W * dir.val.get i)).get k := by
        intro k hk
        by_cases hki : k = i
        · rw [hki, G3D.Vector3.get_set_eq_f32, WarheadBand.Vector3.get_set_eq, hval]
        · rw [G3D.Vector3.get_set_ne_f32 _ hi hk hki,
            WarheadBand.Vector3.get_set_ne _ hi hk hki]
          exact hs1 k hk
      by_cases hc : origin.val.get i + M.get W * dir.val.get i < (MinB.get i).val ∨
          origin.val.get i + M.get W * dir.val.get i > (MaxB.get i).val
      · have hc' : (decide (origin.val.get i + M.get W * dir.val.get i < (MinB.get i).val) ||
            decide ((MaxB.get i).val < origin.val.get i + M.get W * dir.val.get i)) = true := by
          simpa using hc
        rw [if_pos hc', if_pos hc]
        exact ⟨rfl, hk⟩
      · have hc' : ¬ (decide (origin.val.get i + M.get W * dir.val.get i < (MinB.get i).val) ||
            decide ((MaxB.get i).val < origin.val.get i + M.get W * dir.val.get i)) = true := by
          simpa using hc
        rw [if_neg hc', if_neg hc]
        exact ⟨rfl, hk⟩

end VMAP.MyCollisionDetection

/-- Under exact arithmetic the function returns what the exact reading returns
on the rational values of its arguments. -/
theorem VMAP.MyCollisionDetection.collision_refines (dn : Bool) (origin dir : G3D.Vector3)
    (box : G3D.AABox) (location : G3D.Vector3)
    (hex : VMAP.MyCollisionDetection.ExactArithmetic dn origin dir box) :
    (VMAP.MyCollisionDetection.collisionLocationForMovingPointFixedAABox
        dn origin dir box location).result =
      (WarheadBand.MyCollisionDetection.collisionLocationForMovingPointFixedAABox
        origin.val dir.val box.val location.val).result ∧
    (VMAP.MyCollisionDetection.collisionLocationForMovingPointFixedAABox
        dn origin dir box location).Inside =
      (WarheadBand.MyCollisionDetection.collisionLocationForMovingPointFixedAABox
        origin.val dir.val box.val location.val).Inside ∧
    (VMAP.MyCollisionDetection.collisionLocationForMovingPointFixedAABox
        dn origin dir box location).location.val =
      (WarheadBand.MyCollisionDetection.collisionLocationForMovingPointFixedAABox
        origin.val dir.val box.val location.val).location := by
  open VMAP.MyCollisionDetection in
  obtain ⟨hM, hL, hI⟩ := findCandidatePlanes_refines dn origin dir box location hex
  have hlo := fun i => G3D.Vector3.isFinite_get hex.1.2.2.1 i
  have hhi := fun i => G3D.Vector3.isFinite_get hex.1.2.2.2 i
  have hcf := findCandidatePlanes_MaxT_f32 dn origin dir box.low box.high location
  have hlow : box.val.low = box.low.val := rfl
  have hhigh : box.val.high = box.high.val := rfl
  unfold VMAP.MyCollisionDetection.collisionLocationForMovingPointFixedAABox
    WarheadBand.MyCollisionDetection.collisionLocationForMovingPointFixedAABox
  dsimp only
  rw [hlow, hhigh] at hM hL hI ⊢
  set c := findCandidatePlanes dn origin dir box.low box.high location with hc
  set cq := WarheadBand.MyCollisionDetection.findCandidatePlanes origin.val dir.val
    box.low.val box.high.val location.val with hcq
  have hLv : c.location.val = cq.location := by
    apply WarheadBand.Vector3.ext_get
    intro k hk
    rw [G3D.Vector3.val_get]
    exact hL k hk
  rw [hI]
  by_cases hin : cq.Inside = true
  · simp only [hin, if_true, and_self]
  · have hin' : cq.Inside = false := by simpa using hin
    simp only [hin', Bool.false_eq_true, if_false]
    rw [whichPlane_eq c.MaxT cq.MaxT hM]
    set W := WarheadBand.MyCollisionDetection.whichPlane cq.MaxT with hW
    have hWlt : W < 3 := WarheadBand.MyCollisionDetection.whichPlane_lt cq.MaxT
    have hsign : F32.signBit (c.MaxT.get W) = decide (cq.MaxT.get W < 0) := by
      rw [hM W hWlt]
      rfl
    rw [hsign]
    by_cases hneg : cq.MaxT.get W < 0
    · simp only [hneg, decide_True, if_true]
      exact ⟨trivial, trivial, hLv⟩
    · simp only [hneg, decide_False, Bool.false_eq_true, if_false]
      have hminus : c.MaxT.get W ≠ .fin (-1) := by
        intro h
        rw [hM W hWlt] at h
        have h1 : cq.MaxT.get W = -1 := F32.fin.inj h
        rw [h1] at hneg
        exact hneg (by norm_num)
      have hax : ∀ j, j < 3 → j ≠ W →
          F32.Exact (F32.add dn (origin.get j) (F32.mul dn (c.MaxT.get W) (dir.get j)))
            (origin.val.get j + cq.MaxT.get W * dir.val.get j) := by
        have hcW := hcf W hWlt
        unfold axisMaxT at hcW
        cases hp : candidatePlane (origin.get W) (box.low.get W) (box.high.get W) with
        | none =>
          rw [hp] at hcW
          exact absurd hcW hminus
        | some b =>
          rw [hp] at hcW
          by_cases hIR : F32.IR (dir.get W) = true
          · simp only [hIR, if_true] at hcW
            obtain ⟨hE, hall⟩ := hex.2 W hWlt b hp hIR
            have hq : cq.MaxT.get W = (b.val - (origin.get W).val) / (dir.get W).val := by
              have h1 := hM W hWlt
              rw [hcW] at h1
              have h2 := congrArg F32.val h1
              rw [hE.2] at h2
              exact h2.symm
            intro j hj hjW
            rw [hcW, hq, G3D.Vector3.val_get, G3D.Vector3.val_get]
            exact hall j hj hjW
          · simp only [hIR, Bool.false_eq_true, if_false] at hcW
            exact absurd hcW hminus
      simp only [List.foldl_cons, List.foldl_nil]
      have s0 := extentStep_refines dn origin dir box.low box.high c.MaxT cq.MaxT W
        (c.location, false) (cq.location, false) 0 (by decide) (hlo 0) (hhi 0)
        (hax 0 (by decide)) rfl hL
      have s1 := extentStep_refines dn origin dir box.low box.high c.MaxT cq.MaxT W
        _ _ 1 (by decide) (hlo 1) (hhi 1) (hax 1 (by decide)) s0.1 s0.2
      have s2 := extentStep_refines dn origin dir box.low box.high c.MaxT cq.MaxT W
        _ _ 2 (by decide) (hlo 2) (hhi 2) (hax 2 (by decide)) s1.1 s1.2
      refine ⟨congrArg not s2.1, trivial, ?_⟩
      apply WarheadBand.Vector3.ext_get
      intro k hk
      rw [G3D.Vector3.val_get]
      exact s2.2 k hk

/-- In `float` arithmetic, for finite coordinates, the first loop leaves
`Inside = true` exactly when the origin is in the closed box, and then the
function returns true with `location = origin`, whatever the direction. -/
theorem VMAP.MyCollisionDetection.origin_inside (dn : Bool) (origin dir : G3D.Vector3)
    (box : G3D.AABox) (location : G3D.Vector3) (hfo : origin.isFinite = true)
    (hflo : box.low.isFinite = true) (hfhi : box.high.isFinite = true) :
    ((VMAP.MyCollisionDetection.collisionLocationForMovingPointFixedAABox
        dn origin dir box location).Inside = true ↔
      WarheadBand.MyCollisionDetection.inBox box.val origin.val) ∧
    (WarheadBand.MyCollisionDetection.inBox box.val origin.val →
      VMAP.MyCollisionDetection.collisionLocationForMovingPointFixedAABox
        dn origin dir box location = { result := true, location := origin, Inside := true }) := by
  have hI : (findCandidatePlanes dn origin dir box.low box.high location).Inside = true ↔
      WarheadBand.MyCollisionDetection.inBox box.val origin.val := by
    rw [findCandidatePlanes_Inside_f32]
    constructor
    · intro h i hi
      have := (candidatePlane_eq_none_iff (G3D.Vector3.isFinite_get hfo i)
        (G3D.Vector3.isFinite_get hflo i) (G3D.Vector3.isFinite_get hfhi i)).mp (h i hi)
      rw [← G3D.Vector3.val_get, ← G3D.Vector3.val_get, ← G3D.Vector3.val_get] at this
      exact this
    · intro h i hi
      have := h i hi
      have hlow : box.val.low = box.low.val := rfl
      have hhigh : box.val.high = box.high.val := rfl
      rw [hlow, hhigh, G3D.Vector3.val_get, G3D.Vector3.val_get, G3D.Vector3.val_get] at this
      exact (candidatePlane_eq_none_iff (G3D.Vector3.isFinite_get hfo i)
        (G3D.Vector3.isFinite_get hflo i) (G3D.Vector3.isFinite_get hfhi i)).mpr this
  unfold VMAP.MyCollisionDetection.collisionLocationForMovingPointFixedAABox
  dsimp only
  constructor
  · rw [← hI]
    cases hc : (findCandidatePlanes dn origin dir box.low box.high location).Inside with
    | true => simp
    | false =>
      simp only [Bool.false_eq_true, if_false, false_iff]
      split_ifs <;> simp
  · intro h
    rw [if_pos (hI.mpr h)]

/-- C15, amended. In `float` arithmetic, on an input whose arithmetic is exact
(finite coordinates; every candidate distance and every coordinate computed
from it equals its exact rational value): when the origin is outside the closed
box and the ray reaches the box (some `t ≥ 0` has `origin + t * dir` in the
closed box), `collisionLocationForMovingPointFixedAABox` returns true with
`Inside = false` and a finite `location` whose value is `origin + t0 * dir`,
where `t0 ≥ 0` is the least parameter at which the ray is in the box. -/
theorem collision_first_hit_exact_arithmetic (dn : Bool) (origin dir : G3D.Vector3)
    (box : G3D.AABox) (location : G3D.Vector3) (t : ℚ)
    (hex : VMAP.MyCollisionDetection.ExactArithmetic dn origin dir box)
    (hout : ¬ MyCollisionDetection.inBox box.val origin.val) (ht : 0 ≤ t)
    (hhit : MyCollisionDetection.inBox box.val
      (MyCollisionDetection.pointAt origin.val dir.val t)) :
    ∃ t0 : ℚ, 0 ≤ t0 ∧
      MyCollisionDetection.inBox box.val (MyCollisionDetection.pointAt origin.val dir.val t0) ∧
      (∀ t' : ℚ, 0 ≤ t' →
        MyCollisionDetection.inBox box.val
          (MyCollisionDetection.pointAt origin.val dir.val t') → t0 ≤ t') ∧
      (VMAP.MyCollisionDetection.collisionLocationForMovingPointFixedAABox
        dn origin dir box location).result = true ∧
      (VMAP.MyCollisionDetection.collisionLocationForMovingPointFixedAABox
        dn origin dir box location).Inside = false ∧
      (VMAP.MyCollisionDetection.collisionLocationForMovingPointFixedAABox
        dn origin dir box location).location.isFinite = true ∧
      (VMAP.MyCollisionDetection.collisionLocationForMovingPointFixedAABox
        dn origin dir box location).location.val =
          MyCollisionDetection.pointAt origin.val dir.val t0 := by
  obtain ⟨t0, h0, hin, hleast, hr, hi, hl⟩ :=
    MyCollisionDetection.first_hit_rat origin.val dir.val box.val location.val t hout ht hhit
  obtain ⟨r1, r2, r3⟩ :=
    VMAP.MyCollisionDetection.collision_refines dn origin dir box location hex
  have hfin := (VMAP.MyCollisionDetection.collision_hit_location dn origin dir box location hex
    (r1.trans hr) (r2.trans hi)).1
  exact ⟨t0, h0, hin, hleast, r1.trans hr, r2.trans hi, hfin, r3.trans hl⟩

/-- C15, as the claim states it, fails on the `float` code: from (-7, -7, 1/2)
along (23, 23, 0) the ray reaches the unit box at `t = 7/23`, in the point
(0, 0, 1/2). In `float` arithmetic the quotient 7/23 is rounded, `location[1]`
comes out as `-7 + 14680063/2097152 = -1/2097152 < 0`, and the function returns
false. -/
theorem collision_first_hit_rounding_miss :
    ¬ MyCollisionDetection.inBox ⟨⟨0, 0, 0⟩, ⟨1, 1, 1⟩⟩ ⟨-7, -7, 1 / 2⟩ ∧
    MyCollisionDetection.inBox ⟨⟨0, 0, 0⟩, ⟨1, 1, 1⟩⟩
      (MyCollisionDetection.pointAt ⟨-7, -7, 1 / 2⟩ ⟨23, 23, 0⟩ (7 / 23)) ∧
    ∀ dn : Bool,
      (VMAP.MyCollisionDetection.collisionLocationForMovingPointFixedAABox dn
          ⟨.fin (-7), .fin (-7), .fin (1 / 2)⟩ ⟨.fin 23, .fin 23, .fin 0⟩
          ⟨⟨.fin 0, .fin 0, .fin 0⟩, ⟨.fin 1, .fin 1, .fin 1⟩⟩
          ⟨.fin 7, .fin 7, .fin 7⟩).result = false ∧
      (VMAP.MyCollisionDetection.collisionLocationForMovingPointFixedAABox dn
          ⟨.fin (-7), .fin (-7), .fin (1 / 2)⟩ ⟨.fin 23, .fin 23, .fin 0⟩
          ⟨⟨.fin 0, .fin 0, .fin 0⟩, ⟨.fin 1, .fin 1, .fin 1⟩⟩
          ⟨.fin 7, .fin 7, .fin 7⟩).location.get 1 = .fin (-1 / 2097152) := by
  refine ⟨?_, ?_, ?_⟩
  · intro h
    have h0 := h 0 (by decide)
    norm_num [AABox.low, AABox.high, Vector3.get] at h0
  · intro i hi
    interval_cases i <;>
      norm_num [MyCollisionDetection.pointAt, AABox.low, AABox.high, Vector3.get]
  · decide!

/-- Witness for C15: from (-2, 1/4, 1/2) along (4, 1, 0) every operation is
exact and the unit box is reached at `t0 = 1/2`, in the point (0, 3/4, 1/2). -/
theorem collision_first_hit_exact_arithmetic_witness :
    VMAP.MyCollisionDetection.ExactArithmetic true
      ⟨.fin (-2), .fin (1 / 4), .fin (1 / 2)⟩ ⟨.fin 4, .fin 1, .fin 0⟩
      ⟨⟨.fin 0, .fin 0, .fin 0⟩, ⟨.fin 1, .fin 1, .fin 1⟩⟩ ∧
    ∃ t0 : ℚ, 0 ≤ t0 ∧
      MyCollisionDetection.inBox ⟨⟨0, 0, 0⟩, ⟨1, 1, 1⟩⟩
        (MyCollisionDetection.pointAt ⟨-2, 1 / 4, 1 / 2⟩ ⟨4, 1, 0⟩ t0) ∧
      (∀ t' : ℚ, 0 ≤ t' →
        MyCollisionDetection.inBox ⟨⟨0, 0, 0⟩, ⟨1, 1, 1⟩⟩
          (MyCollisionDetection.pointAt ⟨-2, 1 / 4, 1 / 2⟩ ⟨4, 1, 0⟩ t') → t0 ≤ t') ∧
      (VMAP.MyCollisionDetection.collisionLocationForMovingPointFixedAABox true
        ⟨.fin (-2), .fin (1 / 4), .fin (1 / 2)⟩ ⟨.fin 4, .fin 1, .fin 0⟩
        ⟨⟨.fin 0, .fin 0, .fin 0⟩, ⟨.fin 1, .fin 1, .fin 1⟩⟩
        ⟨.fin 7, .fin 7, .fin 7⟩).result = true ∧
      (VMAP.MyCollisionDetection.collisionLocationForMovingPointFixedAABox true
        ⟨.fin (-2), .fin (1 / 4), .fin (1 / 2)⟩ ⟨.fin 4, .fin 1, .fin 0⟩
        ⟨⟨.fin 0, .fin 0, .fin 0⟩, ⟨.fin 1, .fin 1, .fin 1⟩⟩
        ⟨.fin 7, .fin 7, .fin 7⟩).Inside = false ∧
      (VMAP.MyCollisionDetection.collisionLocationForMovingPointFixedAABox true
        ⟨.fin (-2), .fin (1 / 4), .fin (1 / 2)⟩ ⟨.fin 4, .fin 1, .fin 0⟩
        ⟨⟨.fin 0, .fin 0, .fin 0⟩, ⟨.fin 1, .fin 1, .fin 1⟩⟩
        ⟨.fin 7, .fin 7, .fin 7⟩).location.isFinite = true ∧
      (VMAP.MyCollisionDetection.collisionLocationForMovingPointFixedAABox true
        ⟨.fin (-2), .fin (1 / 4), .fin (1 / 2)⟩ ⟨.fin 4, .fin 1, .fin 0⟩
        ⟨⟨.fin 0, .fin 0, .fin 0⟩, ⟨.fin 1, .fin 1, .fin 1⟩⟩
        ⟨.fin 7, .fin 7, .fin 7⟩).location.val =
          MyCollisionDetection.pointAt ⟨-2, 1 / 4, 1 / 2⟩ ⟨4, 1, 0⟩ t0 :=
  ⟨by decide!,
    collision_first_hit_exact_arithmetic true
      ⟨.fin (-2), .fin (1 / 4), .fin (1 / 2)⟩ ⟨.fin 4, .fin 1, .fin 0⟩
      ⟨⟨.fin 0, .fin 0, .fin 0⟩, ⟨.fin 1, .fin 1, .fin 1⟩⟩ ⟨.fin 7, .fin 7, .fin 7⟩
      (1 / 2)
      (by decide!)
      (by
        intro h
        have h0 := h 0 (by decide)
        norm_num [G3D.AABox.val, G3D.Vector3.val, F32.val, AABox.low, AABox.high,
          Vector3.get] at h0)
      (by norm_num)
      (by
        intro i hi
        interval_cases i <;>
          norm_num [MyCollisionDetection.pointAt, G3D.AABox.val, G3D.Vector3.val, F32.val,
            AABox.low, AABox.high, Vector3.get])⟩

/-- C17 fails on the code. For every tokenizer, a call with `escapeCharacters`
set that completes leaves the same handler (so the same packets sent) as the
call without it: the escaped text only reaches the local `msg`. With a
tokenizer cutting at every separator and the text `a|b`, the local `msg` ends
as `a||b`, which is the text with every pipe doubled, while the single packet
sent carries `a|b`. -/
theorem SendSysMessage_sends_unescaped :
    (∀ (Tokenize : Text → Char → Bool → List Text) (h : ChatHandler) (str : Text)
        (r : SendSysMessageOutcome),
      ChatHandler.SendSysMessage Tokenize h str true = some r →
      ChatHandler.SendSysMessage Tokenize h str false =
        some { handler := r.handler, msg := str }) ∧
    ChatHandler.SendSysMessage cutTokenize { m_session := some {} } ['a', PIPE, 'b'] true =
      some { handler := { m_session := some { sent := [BuildChatPacket ['a', PIPE, 'b']] } }
             msg := ['a', PIPE, PIPE, 'b'] } ∧
    escapePipes ['a', PIPE, 'b'] = ['a', PIPE, PIPE, 'b'] ∧
    (BuildChatPacket ['a', PIPE, 'b']).message = some ['a', PIPE, 'b'] := by
  refine ⟨?_, by decide, by decide, by decide⟩
  intro Tokenize h str r hr
  simp only [ChatHandler.SendSysMessage, Bool.false_and, Bool.false_eq_true, if_false] at hr ⊢
  cases hs : List.foldlM
      (fun (h1 : ChatHandler) (line : Text) => h1.SendPacket (BuildChatPacket line)) h
      (Tokenize str NEWLINE true) with
  | none =>
    rw [hs] at hr
    split at hr <;> simp at hr
  | some h2 =>
    rw [hs] at hr
    split at hr
    · simp at hr
    · simp only [Option.some.injEq] at hr
      rw [← hr]

/-- C18. For a non-empty text, `ChatHandler::ParseCommands` returns false and
leaves the handler untouched when the text does not start with `.` or `!`,
when it is a single character, when its second character equals the first, or
when its second character is the command delimiter; in every other case it
returns what `_ParseCommands` returns on the text without its first character. -/
theorem ParseCommands_guard (env : ChatEnv) (h : ChatHandler) (c0 : Char) (rest : Text) :
    ((c0 ≠ DOT ∧ c0 ≠ BANG) ∨ rest = [] ∨ rest.head? = some c0 ∨
        rest.head? = some env.COMMAND_DELIMITER →
      ChatHandler.ParseCommands env h (c0 :: rest) = some (false, h)) ∧
    (¬ ((c0 ≠ DOT ∧ c0 ≠ BANG) ∨ rest = [] ∨ rest.head? = some c0 ∨
        rest.head? = some env.COMMAND_DELIMITER) →
      ChatHandler.ParseCommands env h (c0 :: rest) =
        some (ChatHandler._ParseCommands env h rest)) := by
  have hdef : ChatHandler.ParseCommands env h (c0 :: rest) =
      (if c0 ≠ BANG ∧ c0 ≠ DOT then some (false, h)
        else if (c0 :: rest).length < 2 then some (false, h)
        else if rest.head? = some c0 then some (false, h)
        else if rest.head? = some env.COMMAND_DELIMITER then some (false, h)
        else some (ChatHandler._ParseCommands env h rest)) := rfl
  rw [hdef]
  by_cases h1 : c0 ≠ BANG ∧ c0 ≠ DOT
  · have h1' : c0 ≠ DOT ∧ c0 ≠ BANG := ⟨h1.2, h1.1⟩
    rw [if_pos h1]
    exact ⟨fun _ => rfl, fun hn => absurd (Or.inl h1') hn⟩
  · have h1' : ¬ (c0 ≠ DOT ∧ c0 ≠ BANG) := fun hc => h1 ⟨hc.2, hc.1⟩
    rw [if_neg h1]
    cases rest with
    | nil =>
      simp
    | cons c1 rest1 =>
      have hlen : ¬ (c0 :: c1 :: rest1).length < 2 := by simp
      rw [if_neg hlen, List.head?_cons]
      by_cases h2 : some c1 = some c0
      · simp [h2]
      · by_cases h3 : some c1 = some env.COMMAND_DELIMITER
        · simp [h2, h3]
        · rw [if_neg h2, if_neg h3]
          constructor
          · intro hor
            rcases hor with ha | hb | hc | hd
            · exact absurd ha h1'
            · simp at hb
            · exact absurd hc h2
            · exact absurd hd h3
          · intro _
            rfl

/-- C19. `CliHandler::ParseCommands` returns false on the empty string and
leaves the handler untouched. For a non-empty `s` that does not begin with `.`
or `!`, `ParseCommands("." + s)` and `ParseCommands("!" + s)` give what
`ParseCommands(s)` gives, namely `_ParseCommands(s)`; and for any text, one
leading indicator only is removed before `_ParseCommands`. -/
theorem CliHandler_ParseCommands_indicator (env : ChatEnv) (h : ChatHandler) :
    CliHandler.ParseCommands env h [] = (false, h) ∧
    (∀ s : Text, s ≠ [] → s.head? ≠ some DOT → s.head? ≠ some BANG →
      CliHandler.ParseCommands env h (DOT :: s) = CliHandler.ParseCommands env h s ∧
      CliHandler.ParseCommands env h (BANG :: s) = CliHandler.ParseCommands env h s ∧
      CliHandler.ParseCommands env h s = ChatHandler._ParseCommands env h s) ∧
    (∀ s : Text,
      CliHandler.ParseCommands env h (DOT :: s) = ChatHandler._ParseCommands env h s ∧
      CliHandler.ParseCommands env h (BANG :: s) = ChatHandler._ParseCommands env h s) := by
  have hstrip : ∀ s : Text,
      CliHandler.ParseCommands env h (DOT :: s) = ChatHandler._ParseCommands env h s ∧
      CliHandler.ParseCommands env h (BANG :: s) = ChatHandler._ParseCommands env h s := by
    intro s
    constructor <;> simp [CliHandler.ParseCommands]
  refine ⟨rfl, ?_, hstrip⟩
  intro s hs hd hb
  cases s with
  | nil => exact absurd rfl hs
  | cons c0 rest =>
    have hd' : c0 ≠ DOT := fun hc => hd (by simp [hc])
    have hb' : c0 ≠ BANG := fun hc => hb (by simp [hc])
    have hself : CliHandler.ParseCommands env h (c0 :: rest) =
        ChatHandler._ParseCommands env h (c0 :: rest) := by
      simp [CliHandler.ParseCommands, hd', hb']
    exact ⟨by rw [(hstrip (c0 :: rest)).1, hself], by rw [(hstrip (c0 :: rest)).2, hself], hself⟩

theorem strtok_ne_empty (str : Text) (delim : List Char) : (strtok str delim).1 ≠ some [] := by
  unfold strtok
  cases hs : List.dropWhile (fun c => decide (c ∈ delim)) str with
  | nil => simp
  | cons a l =>
    have hh := List.head?_dropWhile_not (fun c => decide (c ∈ delim)) str
    rw [hs] at hh
    have ha : decide (a ∈ delim) = false := by simpa using hh
    simp [List.takeWhile, ha]

theorem dropWhile_spaces (n : Nat) (c : Char) (tail : Text) (hc : c ≠ SPACE) :
    (List.replicate n SPACE ++ c :: tail).dropWhile (fun a => decide (a = SPACE)) = c :: tail := by
  induction n with
  | zero => simp [hc]
  | succ n ih => simpa [List.replicate_succ] using ih

theorem dropWhile_only_spaces (n : Nat) :
    (List.replicate n SPACE).dropWhile (fun a => decide (a = SPACE)) = [] := by
  simp

theorem extractQuotedArg_skip (c : Char) (rest : Text) (hc : c ≠ DQUOTE) (c1 : Char)
    (rest1 : Text)
    (hd : (c :: rest).dropWhile (fun a => decide (a = SPACE)) = c1 :: rest1) :
    extractQuotedArg (c :: rest) =
      if c1 = DQUOTE then
        (if rest1.head? = some DQUOTE then some [] else (strtok rest1 [DQUOTE]).1)
      else none := by
  simp only [extractQuotedArg, if_neg hc, hd]

theorem extractQuotedArg_skip_all (c : Char) (rest : Text) (hc : c ≠ DQUOTE)
    (hd : (c :: rest).dropWhile (fun a => decide (a = SPACE)) = []) :
    extractQuotedArg (c :: rest) = none := by
  simp only [extractQuotedArg, if_neg hc, hd]

/-- C20 fails on the code. A string that starts with two double quotes and no
space before them takes the first branch, `strtok(args + 1, "\"")`: for `""`
the result is `nullptr`, and for no such string is it the empty string. The
parts of the claim that hold: after at least one space, two double quotes give
the empty string; the empty string, a string of spaces only, and a string
whose first non-space character is not a double quote give `nullptr`. -/
theorem extractQuotedArg_two_quotes :
    extractQuotedArg [DQUOTE, DQUOTE] = none ∧
    (∀ tail : Text, extractQuotedArg (DQUOTE :: DQUOTE :: tail) ≠ some []) ∧
    (∀ (n : Nat) (tail : Text), 0 < n →
      extractQuotedArg (List.replicate n SPACE ++ DQUOTE :: DQUOTE :: tail) = some []) ∧
    extractQuotedArg [] = none ∧
    (∀ n : Nat, extractQuotedArg (List.replicate n SPACE) = none) ∧
    (∀ (n : Nat) (c : Char) (tail : Text), c ≠ DQUOTE → c ≠ SPACE →
      extractQuotedArg (List.replicate n SPACE ++ c :: tail) = none) := by
  have hqs : DQUOTE ≠ SPACE := by decide
  refine ⟨by decide, ?_, ?_, rfl, ?_, ?_⟩
  · intro tail
    have : extractQuotedArg (DQUOTE :: DQUOTE :: tail) = (strtok (DQUOTE :: tail) [DQUOTE]).1 := by
      simp [extractQuotedArg]
    rw [this]
    exact strtok_ne_empty _ _
  · intro n tail hn
    obtain ⟨k, rfl⟩ : ∃ k, n = k + 1 := ⟨n - 1, by omega⟩
    have hd := dropWhile_spaces (k + 1) DQUOTE (DQUOTE :: tail) hqs
    rw [List.replicate_succ, List.cons_append] at hd ⊢
    rw [extractQuotedArg_skip _ _ (Ne.symm hqs) _ _ hd]
    simp
  · intro n
    cases n with
    | zero => rfl
    | succ k =>
      have hd := dropWhile_only_spaces (k + 1)
      rw [List.replicate_succ] at hd ⊢
      exact extractQuotedArg_skip_all _ _ (Ne.symm hqs) hd
  · intro n c tail hq hs
    have hd := dropWhile_spaces n c tail hs
    cases n with
    | zero =>
      simp only [List.replicate_zero, List.nil_append] at hd ⊢
      rw [extractQuotedArg_skip _ _ hq _ _ hd, if_neg hq]
    | succ k =>
      rw [List.replicate_succ, List.cons_append] at hd ⊢
      rw [extractQuotedArg_skip _ _ (Ne.symm hqs) _ _ hd, if_neg hq]

/-! ## Object placement and instance admission -/

/-- C12. `InstanceMap::CannotEnter` returns `CANNOT_ENTER_MAX_PLAYERS` once the
player count has reached the cap `GetMaxPlayers()`, and `CAN_ENTER` when the
count is one below the cap and no other admission rule fails. -/
theorem InstanceMap_CannotEnter_cap (otherRules : PlayerPtr → Bool → Option MapEnterState)
    (im : InstanceMap) (player : PlayerPtr) (loginCheck : Bool) :
    (im.GetMaxPlayers ≤ im.playerCount →
      im.CannotEnter otherRules player loginCheck = MapEnterState.CANNOT_ENTER_MAX_PLAYERS) ∧
    (im.playerCount + 1 = im.GetMaxPlayers → otherRules player loginCheck = none →
      im.CannotEnter otherRules player loginCheck = MapEnterState.CAN_ENTER) := by
  constructor
  · intro h
    simp [InstanceMap.CannotEnter, h]
  · intro h hn
    have hlt : ¬ im.GetMaxPlayers ≤ im.playerCount := by omega
    simp [InstanceMap.CannotEnter, hlt, hn]

/-! ## Chat handler: creature lookup -/

theorem selectCreature_first_alive (IsAlive : CreaturePtr → Bool)
    (pre : List (LowType × CreaturePtr)) (it : LowType × CreaturePtr)
    (post : List (LowType × CreaturePtr)) (c0 : CreaturePtr)
    (hpre : ∀ d ∈ pre, IsAlive d.2 = false) (hit : IsAlive it.2 = true) :
    selectCreature IsAlive (pre ++ it :: post) c0 = it.2 := by
  induction pre generalizing c0 with
  | nil => simp [selectCreature, hit]
  | cons d pre ih =>
    have hd : IsAlive d.2 = false := hpre d (List.mem_cons_self d pre)
    simp only [List.cons_append, selectCreature, hd, Bool.false_eq_true, if_false]
    exact ih d.2 (fun e he => hpre e (List.mem_cons_of_mem d he))

theorem selectCreature_none_alive (IsAlive : CreaturePtr → Bool)
    (pre : List (LowType × CreaturePtr)) (it : LowType × CreaturePtr) (c0 : CreaturePtr)
    (hdead : ∀ d ∈ pre ++ [it], IsAlive d.2 = false) :
    selectCreature IsAlive (pre ++ [it]) c0 = it.2 := by
  induction pre generalizing c0 with
  | nil =>
    have hd : IsAlive it.2 = false := hdead it (by simp)
    simp [selectCreature, hd]
  | cons d pre ih =>
    have hd : IsAlive d.2 = false := hdead d (by simp)
    simp only [List.cons_append, selectCreature, hd, Bool.false_eq_true, if_false]
    exact ih d.2 (fun e he => hdead e (by
      rw [List.cons_append]
      exact List.mem_cons_of_mem d he))

theorem selectCreature_mem (IsAlive : CreaturePtr → Bool)
    (range : List (LowType × CreaturePtr)) (c0 : CreaturePtr) (hne : range ≠ []) :
    ∃ it ∈ range, selectCreature IsAlive range c0 = it.2 := by
  induction range generalizing c0 with
  | nil => exact absurd rfl hne
  | cons d rest ih =>
    by_cases hd : IsAlive d.2 = true
    · exact ⟨d, List.mem_cons_self d rest, by simp [selectCreature, hd]⟩
    · cases rest with
      | nil => exact ⟨d, List.mem_cons_self d [], by simp [selectCreature, hd]⟩
      | cons e rest' =>
        obtain ⟨it, hmem, hsel⟩ := ih d.2 (by simp)
        refine ⟨it, List.mem_cons_of_mem d hmem, ?_⟩
        rw [← hsel]
        have hd' : IsAlive d.2 = false := by simpa using hd
        simp [selectCreature, hd']

/-- C21. `ChatHandler::GetCreatureFromPlayerMapByDbGuid`: with no session it
returns `nullptr`. With a session, over the range of the spawn-id store for
`lowguid` in iteration order: it returns the first creature that is alive (the
one before which every creature of the range is dead); when the range is not
empty and no creature of it is alive, it returns the last creature of the
range; when the range is empty it returns `nullptr`. With non-null pointers in
the store, the result is `nullptr` exactly when there is no session or the
range is empty. -/
theorem GetCreatureFromPlayerMapByDbGuid_selects (env : CreatureLookupEnv) (h : ChatHandler)
    (lowguid : LowType) :
    (h.m_session = none → h.GetCreatureFromPlayerMapByDbGuid env lowguid = nullptr) ∧
    (∀ s, h.m_session = some s →
      (∀ pre it post,
        CreatureBySpawnIdContainer.equal_range (env.GetCreatureBySpawnIdStore s) lowguid
          = pre ++ it :: post →
        (∀ d ∈ pre, env.IsAlive d.2 = false) → env.IsAlive it.2 = true →
        h.GetCreatureFromPlayerMapByDbGuid env lowguid = it.2) ∧
      (∀ pre it,
        CreatureBySpawnIdContainer.equal_range (env.GetCreatureBySpawnIdStore s) lowguid
          = pre ++ [it] →
        (∀ d ∈ pre ++ [it], env.IsAlive d.2 = false) →
        h.GetCreatureFromPlayerMapByDbGuid env lowguid = it.2) ∧
      (CreatureBySpawnIdContainer.equal_range (env.GetCreatureBySpawnIdStore s) lowguid = [] →
        h.GetCreatureFromPlayerMapByDbGuid env lowguid = nullptr)) ∧
    ((∀ s, h.m_session = some s → ∀ d ∈ env.GetCreatureBySpawnIdStore s, d.2 ≠ nullptr) →
      (h.GetCreatureFromPlayerMapByDbGuid env lowguid = nullptr ↔
        h.m_session = none ∨
        ∃ s, h.m_session = some s ∧
          CreatureBySpawnIdContainer.equal_range (env.GetCreatureBySpawnIdStore s) lowguid
            = [])) := by
  refine ⟨?_, ?_, ?_⟩
  · intro hs
    simp [ChatHandler.GetCreatureFromPlayerMapByDbGuid, hs]
  · intro s hs
    have hdef : h.GetCreatureFromPlayerMapByDbGuid env lowguid =
        selectCreature env.IsAlive
          (CreatureBySpawnIdContainer.equal_range (env.GetCreatureBySpawnIdStore s) lowguid)
          nullptr := by
      simp [ChatHandler.GetCreatureFromPlayerMapByDbGuid, hs]
    rw [hdef]
    refine ⟨?_, ?_, ?_⟩
    · intro pre it post hr hpre hit
      rw [hr]
      exact selectCreature_first_alive env.IsAlive pre it post nullptr hpre hit
    · intro pre it hr hdead
      rw [hr]
      exact selectCreature_none_alive env.IsAlive pre it nullptr hdead
    · intro hr
      rw [hr]
      rfl
  · intro hnn
    cases hs : h.m_session with
    | none =>
      simp [ChatHandler.GetCreatureFromPlayerMapByDbGuid, hs]
    | some s =>
      have hdef : h.GetCreatureFromPlayerMapByDbGuid env lowguid =
          selectCreature env.IsAlive
            (CreatureBySpawnIdContainer.equal_range (env.GetCreatureBySpawnIdStore s) lowguid)
            nullptr := by
        simp [ChatHandler.GetCreatureFromPlayerMapByDbGuid, hs]
      rw [hdef]
      constructor
      · intro hnull
        refine Or.inr ⟨s, rfl, ?_⟩
        by_contra hne
        obtain ⟨it, hmem, hsel⟩ := selectCreature_mem env.IsAlive _ nullptr hne
        have hstore : it ∈ env.GetCreatureBySpawnIdStore s := by
          unfold CreatureBySpawnIdContainer.equal_range at hmem
          exact (List.mem_filter.mp hmem).1
        exact hnn s hs it hstore (hsel ▸ hnull)
      · intro hor
        rcases hor with hc | ⟨s', hs', hr⟩
        · simp at hc
        · have : s' = s := by simpa using hs'.symm
          subst this
          rw [hr]
          rfl

/-! ## Chat handler: security check -/

theorem foldlM_SendPacket (lines : List Text) :
    ∀ (h : ChatHandler) (s : WorldSession), h.m_session = some s →
      List.foldlM (fun (h1 : ChatHandler) (line : Text) => h1.SendPacket (BuildChatPacket line))
          h lines =
        some { h with m_session := some { s with sent := s.sent ++ lines.map BuildChatPacket } } := by
  induction lines with
  | nil =>
    intro h s hs
    cases h
    simp only at hs
    simp [hs]
  | cons line rest ih =>
    intro h s hs
    have hstep : h.SendPacket (BuildChatPacket line) =
        some { h with m_session := some { s with sent := s.sent ++ [BuildChatPacket line] } } := by
      simp [ChatHandler.SendPacket, hs]
    rw [List.foldlM_cons, hstep]
    simp only [Option.bind_eq_bind, Option.some_bind]
    rw [ih _ { s with sent := s.sent ++ [BuildChatPacket line] } rfl]
    simp

/-- With a session, `SendSysMessage(entry)` completes and appends to the
packets sent one packet for each line of the string of `entry`. -/
theorem SendSysMessageEntry_session (env : SecurityEnv) (h : ChatHandler) (s : WorldSession)
    (hs : h.m_session = some s) (entry : Nat) :
    h.SendSysMessageEntry env entry =
      some { h with m_session := some { s with sent := s.sent ++
        (env.Tokenize (env.GetWarheadString s entry) NEWLINE true).map BuildChatPacket } } := by
  simp only [ChatHandler.SendSysMessageEntry, hs, ChatHandler.SendSysMessage, Bool.false_and,
    Bool.false_eq_true, if_false]
  rw [foldlM_SendPacket _ h s hs]
  rfl

/-- C22. `ChatHandler::HasLowerSecurityAccount`. With no session it returns
false and leaves the handler untouched, whatever the target, the account and
`strong`. With a session of security `s`, when the check is not skipped (the
invoker is a player account, or `strong` is set, or `GM.LowerSecurity` is
enabled): for a target of security `t` (the security of the target session if
there is one, else the one of a non-zero `target_account`), if `s < t`, or
`strong` and `s = t`, it returns true, sends the low-security message to the
session and sets the error flag, and otherwise it returns false and sends
nothing; with neither target nor account it returns true and sends nothing.
When the check is skipped it returns false and sends nothing. -/
theorem HasLowerSecurityAccount_check (env : SecurityEnv) (h : ChatHandler)
    (target : Option WorldSession) (target_account : Nat) (strong : Bool) :
    (h.m_session = none →
      h.HasLowerSecurityAccount env target target_account strong = some (false, h)) ∧
    (∀ s, h.m_session = some s →
      (env.IsPlayerAccount s.security = true ∨ strong = true ∨ env.GM_LowerSecurity = true) →
      (∀ t : Nat,
        ((∃ ts, target = some ts ∧ t = ts.security) ∨
          (target = none ∧ target_account ≠ 0 ∧ t = env.GetSecurity target_account)) →
        ((s.security < t ∨ (strong = true ∧ s.security = t)) →
          h.HasLowerSecurityAccount env target target_account strong =
            some (true,
              { m_session := some { s with sent := (s.sent ++
                  (env.Tokenize (env.GetWarheadString s env.LANG_YOURS_SECURITY_IS_LOW)
                    NEWLINE true).map BuildChatPacket) },
                sentErrorMessage := true })) ∧
        (¬ (s.security < t ∨ (strong = true ∧ s.security = t)) →
          h.HasLowerSecurityAccount env target target_account strong = some (false, h))) ∧
      (target = none → target_account = 0 →
        h.HasLowerSecurityAccount env target target_account strong = some (true, h))) ∧
    (∀ s, h.m_session = some s →
      env.IsPlayerAccount s.security = false → strong = false → env.GM_LowerSecurity = false →
      h.HasLowerSecurityAccount env target target_account strong = some (false, h)) := by
  refine ⟨?_, ?_, ?_⟩
  · intro hs
    simp [ChatHandler.HasLowerSecurityAccount, hs]
  · intro s hs hcheck
    have hskip : (!env.IsPlayerAccount s.security && !strong && !env.GM_LowerSecurity) = false := by
      rcases hcheck with hc | hc | hc <;> simp [hc]
    -- the call once the target security is known
    have hknown : ∀ t : Nat,
        ((∃ ts, target = some ts ∧ t = ts.security) ∨
          (target = none ∧ target_account ≠ 0 ∧ t = env.GetSecurity target_account)) →
        h.HasLowerSecurityAccount env target target_account strong =
          if s.security < t ∨ (strong = true ∧ s.security ≤ t) then
            (h.SendSysMessageEntry env env.LANG_YOURS_SECURITY_IS_LOW).map
              (fun h1 => (true, h1.SetSentErrorMessage true))
          else some (false, h) := by
      intro t ht
      rcases ht with ⟨ts, htarget, rfl⟩ | ⟨htarget, hacc, rfl⟩
      · simp only [ChatHandler.HasLowerSecurityAccount, hs, hskip, htarget]
        simp
      · simp only [ChatHandler.HasLowerSecurityAccount, hs, hskip, htarget]
        simp [hacc]
    constructor
    · intro t ht
      rw [hknown t ht]
      constructor
      · intro hlow
        have hcond : s.security < t ∨ (strong = true ∧ s.security ≤ t) := by
          rcases hlow with hl | ⟨hst, heq⟩
          · exact Or.inl hl
          · exact Or.inr ⟨hst, le_of_eq heq⟩
        rw [if_pos hcond, SendSysMessageEntry_session env h s hs]
        simp [ChatHandler.SetSentErrorMessage]
      · intro hnot
        have hcond : ¬ (s.security < t ∨ (strong = true ∧ s.security ≤ t)) := by
          intro hc
          apply hnot
          rcases hc with hl | ⟨hst, hle⟩
          · exact Or.inl hl
          · rcases Nat.lt_or_eq_of_le hle with hl | heq
            · exact Or.inl hl
            · exact Or.inr ⟨hst, heq⟩
        rw [if_neg hcond]
    · intro htarget hacc
      simp [ChatHandler.HasLowerSecurityAccount, hs, hskip, htarget, hacc]
  · intro s hs hp hst hgm
    simp [ChatHandler.HasLowerSecurityAccount, hs, hp, hst, hgm]

end WarheadBand
